import Mathlib

/-
Verification development for the OVN Network ACL compilation and port-group
synchronization engine (package `acl`, file modelled from `acl_ovn.go`), the
resource inventory cache (package `resources`), and their helpers.

The Go code is embedded shallowly: pure Go functions become Lean functions on
`String` / `List`, the stateful reconciler `OVNEnsureACLs` becomes an explicit
state machine over an `OVNState` value (an ordered association list of OVN
port groups), and fallible Go code returns an explicit result type.  String
primitives are implemented over `String.data` (lists of characters) with
structural/fuel recursion so that every definition reduces inside the kernel.
-/

namespace IncusACL

/-! ## String primitives (models of Go `strings` / incus `shared/util` helpers) -/

/-- Characters treated as space by `strings.TrimSpace` (ASCII subset). -/
def isGoSpace (c : Char) : Bool :=
  c == ' ' || c == '\t' || c == '\n' || c == '\r'

/-- Trim ASCII whitespace from both ends of a character list. -/
def trimChars (l : List Char) : List Char :=
  ((l.dropWhile isGoSpace).reverse.dropWhile isGoSpace).reverse

/-- Model of Go `strings.TrimSpace` restricted to ASCII whitespace. -/
def goTrim (s : String) : String :=
  String.mk (trimChars s.data)

/-- Split a character list on every occurrence of a (non-empty) pattern.
Fuel recursion; fuel `s.length + 1` always suffices. -/
def charsSplitGo : Nat → List Char → List Char → List Char → List (List Char)
  | 0, s, _, cur => [cur ++ s]
  | fuel + 1, s, pat, cur =>
    match s with
    | [] => [cur]
    | c :: rest =>
      if pat ≠ [] ∧ pat.isPrefixOf s then
        cur :: charsSplitGo fuel (s.drop pat.length) pat []
      else
        charsSplitGo fuel rest pat (cur ++ [c])

/-- Model of Go `strings.Split` (equivalently `strings.SplitN` with `n = -1`)
for a non-empty separator. -/
def goSplit (s sep : String) : List String :=
  (charsSplitGo (s.data.length + 1) s.data sep.data []).map String.mk

/-- Model of Go `strings.Join`. -/
def goJoin (sep : String) : List String → String
  | [] => ""
  | x :: xs => xs.foldl (fun acc y => acc ++ sep ++ y) x

/-- Model of Go `strings.SplitN` with `n = 2`: split at the first occurrence
of the separator only. -/
def goSplitN2 (s sep : String) : List String :=
  match goSplit s sep with
  | x :: y :: rest => [x, goJoin sep (y :: rest)]
  | l => l

/-- Model of Go `strings.HasPrefix`. -/
def goHasPrefix (s pre : String) : Bool :=
  pre.data.isPrefixOf s.data

/-- Model of Go `strings.TrimPrefix` / the removing half of `strings.CutPrefix`. -/
def goTrimPrefix (s pre : String) : String :=
  if goHasPrefix s pre then String.mk (s.data.drop pre.data.length) else s

/-- Substring test, used to model `strings.Contains`. Fuel recursion. -/
def charsContainsSub : Nat → List Char → List Char → Bool
  | 0, _, _ => false
  | fuel + 1, s, pat =>
    if pat.isPrefixOf s then true
    else match s with
      | [] => false
      | _ :: rest => charsContainsSub fuel rest pat

/-- Model of Go `strings.Contains`. -/
def goContainsSub (s sub : String) : Bool :=
  charsContainsSub (s.data.length + 1) s.data sub.data

/-- Replace every occurrence of a non-empty pattern in a character list.
Fuel recursion, models Go `strings.Replace(s, old, new, -1)`. -/
def charsReplaceAll : Nat → List Char → List Char → List Char → List Char
  | 0, s, _, _ => s
  | fuel + 1, s, pat, rep =>
    match s with
    | [] => []
    | c :: rest =>
      if pat ≠ [] ∧ pat.isPrefixOf s then
        rep ++ charsReplaceAll fuel (s.drop pat.length) pat rep
      else
        c :: charsReplaceAll fuel rest pat rep

/-- Model of a replace-all string substitution (used for the OVN client's
`matchReplace` map application). -/
def goReplaceAll (s pat rep : String) : String :=
  String.mk (charsReplaceAll (s.data.length + 1) s.data pat.data rep.data)

/-- Model of incus `shared/util.SplitNTrimSpace(s, sep, -1, nilIfEmpty)`:
split on the separator and trim each element; with `nilIfEmpty` a blank
input yields the empty list. -/
def splitNTrimSpace (s sep : String) (nilIfEmpty : Bool) : List String :=
  if nilIfEmpty && (goTrim s == "") then []
  else (goSplit s sep).map goTrim

/-! ## Assoc-list lookups (models of Go map reads) -/

/-- Go map read returning an `Option` (models the `v, found := m[k]` form). -/
def goLookup {α : Type} (m : List (String × α)) (k : String) : Option α :=
  (m.find? (fun p => p.1 == k)).map Prod.snd

/-- Go map read of an `int64`-valued map with the zero value for a missing
key (models the `m[k]` form). -/
def goLookupInt (m : List (String × Int)) (k : String) : Int :=
  (goLookup m k).getD 0

/-! ## IP address model

`net.ParseIP`, `net.ParseCIDR` and the incus validators `IsNetworkAddressCIDR`
and `IsNetworkRange` are external to the embedded files; they are modelled
from their documented contracts.  The embedded code only observes whether a
string parses as an IP (or CIDR) and whether the parsed address is an IPv4
address (`ip.To4() != nil`), so the model returns exactly that information:
`some true` for IPv4 (including IPv4-mapped IPv6), `some false` for other
IPv6, `none` on a parse failure.  Dotted-quad-embedded IPv6 text (e.g.
`::ffff:1.2.3.4`) is not modelled. -/

/-- Decimal digit test. -/
def isDigitChar (c : Char) : Bool := '0' ≤ c ∧ c ≤ '9'

/-- Hex digit test. -/
def isHexChar (c : Char) : Bool :=
  isDigitChar c || ('a' ≤ c ∧ c ≤ 'f') || ('A' ≤ c ∧ c ≤ 'F')

/-- Numeric value of a decimal digit list. -/
def charsToNat (l : List Char) : Nat :=
  l.foldl (fun n c => n * 10 + (c.toNat - '0'.toNat)) 0

/-- Numeric value of a hex digit list. -/
def hexVal (c : Char) : Nat :=
  if isDigitChar c then c.toNat - '0'.toNat
  else if 'a' ≤ c ∧ c ≤ 'f' then c.toNat - 'a'.toNat + 10
  else c.toNat - 'A'.toNat + 10

/-- Numeric value of a hex digit list. -/
def charsToHexNat (l : List Char) : Nat :=
  l.foldl (fun n c => n * 16 + hexVal c) 0

/-- One dotted-decimal IPv4 field: 1-3 digits, value at most 255, no leading
zero (Go rejects leading zeros in dotted decimals). -/
def validIPv4Octet (s : String) : Bool :=
  let cs := s.data
  (!cs.isEmpty) && cs.all isDigitChar && decide (cs.length ≤ 3) &&
    !(decide (1 < cs.length) && (cs.headD 'x' == '0')) &&
    decide (charsToNat cs ≤ 255)

/-- Dotted-decimal IPv4 address test. -/
def parseIPv4B (s : String) : Bool :=
  match goSplit s "." with
  | [a, b, c, d] => validIPv4Octet a && validIPv4Octet b && validIPv4Octet c && validIPv4Octet d
  | _ => false

/-- One 16-bit IPv6 hex group: 1-4 hex digits. -/
def parseHexGroup (s : String) : Option Nat :=
  let cs := s.data
  if (!cs.isEmpty) && cs.all isHexChar && decide (cs.length ≤ 4) then
    some (charsToHexNat cs)
  else none

/-- Parse every group of a colon-separated list. -/
def parseHexGroups : List String → Option (List Nat)
  | [] => some []
  | g :: rest =>
    match parseHexGroup g, parseHexGroups rest with
    | some v, some vs => some (v :: vs)
    | _, _ => none

/-- Parse an IPv6 address into its eight 16-bit groups (simplified model:
hex groups with at most one `::`, no embedded dotted IPv4 suffix). -/
def parseIPv6Groups (s : String) : Option (List Nat) :=
  match goSplit s "::" with
  | [whole] =>
    let gs := goSplit whole ":"
    if gs.length == 8 then parseHexGroups gs else none
  | [l, r] =>
    let ls := if l == "" then [] else goSplit l ":"
    let rs := if r == "" then [] else goSplit r ":"
    if decide (ls.length + rs.length ≤ 7) then
      match parseHexGroups ls, parseHexGroups rs with
      | some lv, some rv => some (lv ++ List.replicate (8 - ls.length - rs.length) 0 ++ rv)
      | _, _ => none
    else none
  | _ => none

/-- Whether an 8-group IPv6 address is IPv4-mapped (`::ffff:a.b.c.d`), the
case where Go's `To4()` is non-nil for an IPv6-syntax address. -/
def isV4MappedGroups : List Nat → Bool
  | [a, b, c, d, e, f, _, _] =>
    a == 0 && b == 0 && c == 0 && d == 0 && e == 0 && f == 0xffff
  | _ => false

/-- Model of `net.ParseIP` combined with the `To4()` classification:
`some true` when the string parses and `To4()` would be non-nil,
`some false` when it parses as a plain IPv6 address, `none` otherwise. -/
def goParseIP (s : String) : Option Bool :=
  if parseIPv4B s then some true
  else if s.data.contains ':' then
    match parseIPv6Groups s with
    | some gs => some (isV4MappedGroups gs)
    | none => none
  else none

/-- All-decimal-digits test with no leading zero, for CIDR prefix lengths. -/
def validDecimal (s : String) : Bool :=
  let cs := s.data
  (!cs.isEmpty) && cs.all isDigitChar && !(decide (1 < cs.length) && (cs.headD 'x' == '0'))

/-- Model of `net.ParseCIDR` restricted to what the code observes: `some b`
when the string is `addr/len` with a valid address of family `b` (`true` =
IPv4) and an in-range prefix length. -/
def parseCIDRFamily (s : String) : Option Bool :=
  match goSplitN2 s "/" with
  | [addr, mask] =>
    match goParseIP addr with
    | some fam =>
      if validDecimal mask && decide (charsToNat mask.data ≤ (if fam then 32 else 128)) then
        some fam
      else none
    | none => none
  | _ => none

/-- Model of incus `validate.IsNetworkAddressCIDR` as a Boolean: the value
parses as an IP address in CIDR form. -/
def IsNetworkAddressCIDRB (s : String) : Bool :=
  (parseCIDRFamily s).isSome

/-- Model of incus `validate.IsNetworkRange` as a Boolean: `start-end` where
both endpoints parse as IPs of the same family. -/
def IsNetworkRangeB (s : String) : Bool :=
  match goSplitN2 s "-" with
  | [a, b] =>
    match goParseIP a, goParseIP b with
    | some fa, some fb => fa == fb
    | _, _ => false
  | _ => false

/-! ## Data model (package `acl` / `api` records used by the engine) -/

/-- Emitted OVN ACL rule record (`ovn.OVNACLRule`). -/
structure OVNACLRule where
  Direction : String := ""
  Action : String := ""
  Priority : Nat := 0
  Match : String := ""
  Log : Bool := false
  LogName : String := ""
deriving DecidableEq

/-- One user-declared ACL rule (`api.NetworkACLRule`). -/
structure NetworkACLRule where
  Action : String := ""
  State : String := ""
  Protocol : String := ""
  Source : String := ""
  Destination : String := ""
  SourcePort : String := ""
  DestinationPort : String := ""
  ICMPType : String := ""
  ICMPCode : String := ""
deriving DecidableEq

/-- A network ACL (`api.NetworkACL`), restricted to the fields the engine
reads. -/
structure NetworkACL where
  Name : String := ""
  Ingress : List NetworkACLRule := []
  Egress : List NetworkACLRule := []
deriving DecidableEq

/-- A network-peer connection key (`cluster.NetworkPeerConnection`). -/
structure NetworkPeerConnection where
  NetworkName : String
  PeerName : String
deriving DecidableEq, BEq

/-- The subset of `NetworkACLUsage` read by the engine: a bound OVN
network's name and ID. -/
structure NetworkACLUsage where
  Name : String
  ID : Int
deriving DecidableEq

/-- Result of fallible pure code (shallow model of Go's `(T, error)`). -/
inductive Exc (α : Type) where
  | ok (a : α)
  | error (e : String)
deriving DecidableEq

/-! ## Constants and naming (from `acl_ovn.go`) -/

/-- Priority of the per-port-group default catch-all rule. -/
def ovnACLPriorityPortGroupDefaultAction : Nat := 0

/-- Priority of port-group allow rules. -/
def ovnACLPriorityPortGroupAllow : Nat := 300

/-- Priority of port-group reject rules. -/
def ovnACLPriorityPortGroupReject : Nat := 400

/-- Priority of port-group drop rules. -/
def ovnACLPriorityPortGroupDrop : Nat := 500

/-- Name prefix of ACL-related OVN port groups. -/
def ovnACLPortGroupPrefix : String := "incus_acl"

/-- Port group name for a network ACL ID (`OVNACLPortGroupName`). -/
def OVNACLPortGroupName (networkACLID : Int) : String :=
  ovnACLPortGroupPrefix ++ toString networkACLID

/-- Port group name for a network ACL ID and network ID
(`OVNACLNetworkPortGroupName`). -/
def OVNACLNetworkPortGroupName (networkACLID networkID : Int) : String :=
  ovnACLPortGroupPrefix ++ toString networkACLID ++ "_net" ++ toString networkID

/-- Per-network switch port group name (`OVNIntSwitchPortGroupName`). -/
def OVNIntSwitchPortGroupName (networkID : Int) : String :=
  "incus_net" ++ toString networkID

/-- Per-network routes address-set prefix
(`OVNIntSwitchPortGroupAddressSetPrefix`). -/
def OVNIntSwitchPortGroupAddressSetPrefix (networkID : Int) : String :=
  OVNIntSwitchPortGroupName networkID ++ "_routes"

/-- Prefix for OVN entities of a network (`OVNNetworkPrefix`). -/
def OVNNetworkPrefix (networkID : Int) : String :=
  "incus-net" ++ toString networkID

/-- Internal logical switch name (`OVNIntSwitchName`). -/
def OVNIntSwitchName (networkID : Int) : String :=
  OVNNetworkPrefix networkID ++ "-ls-int"

/-- Internal switch router port name (`OVNIntSwitchRouterPortName`). -/
def OVNIntSwitchRouterPortName (networkID : Int) : String :=
  OVNIntSwitchName networkID ++ "-lsp-router"

/-- Modelled from the spec: the reserved `@internal` subject name
(constant `ruleSubjectInternal` lives in the ACL driver file, which is not
among the embedded sources; the spec names the alias `@internal`). -/
def ruleSubjectInternal : String := "@internal"

/-- Modelled from the spec: the reserved `@external` subject name. -/
def ruleSubjectExternal : String := "@external"

/-- Modelled from the spec: aliases of `@internal` (the legacy `#internal`
synonym included). -/
def ruleSubjectInternalAliases : List String := [ruleSubjectInternal, "#internal"]

/-- Modelled from the spec: aliases of `@external` (the legacy `#external`
synonym included). -/
def ruleSubjectExternalAliases : List String := [ruleSubjectExternal, "#external"]

/-! ## Reference resolver (`ovnAddReferencedACLs`) and address-set helpers -/

/-- The inner `addACLNamesFrom` closure of `ovnAddReferencedACLs`: fold one
subject token into the referenced-ACL set (a dedup-on-insert list). -/
def addACLNamesFrom (referencedACLNames : List String) (ruleSubjects : List String) : List String :=
  ruleSubjects.foldl
    (fun acc subject =>
      if acc.contains subject then acc
      else if (ruleSubjectInternalAliases ++ ruleSubjectExternalAliases).contains subject then acc
      else if IsNetworkAddressCIDRB subject || IsNetworkRangeB subject then acc
      else acc ++ [subject])
    referencedACLNames

/-- `ovnAddReferencedACLs`: add to the set every ACL name referenced by the
rules of the supplied ACL (ingress sources and egress destinations). -/
def ovnAddReferencedACLs (info : NetworkACL) (referencedACLNames : List String) : List String :=
  let s1 := info.Ingress.foldl
    (fun acc rule => addACLNamesFrom acc (splitNTrimSpace rule.Source "," true)) referencedACLNames
  info.Egress.foldl
    (fun acc rule => addACLNamesFrom acc (splitNTrimSpace rule.Destination "," true)) s1

/-- `replaceAddressSetNames`: replace `$name` subject tokens with
`$incus_set<ID>` using the resolved address-set ID map. -/
def replaceAddressSetNames (subject : String) (addressSetIDs : List (String × Int)) : String :=
  let subjects := splitNTrimSpace subject "," true
  goJoin ","
    (subjects.map fun subj =>
      if goHasPrefix subj "$" then
        match goLookup addressSetIDs (goTrimPrefix subj "$") with
        | some setID => "$incus_set" ++ toString setID
        | none => subj
      else subj)

/-- The `extractAddressSets` closure of `ovnApplyToPortGroup`: collect every
`$`-prefixed subject token of the rules (first-seen order, deduplicated). -/
def extractAddressSets (rules : List NetworkACLRule) (acc : List String) : List String :=
  rules.foldl
    (fun acc rule =>
      let acc2 := (splitNTrimSpace rule.Source "," true).foldl
        (fun a subj => if goHasPrefix subj "$" && !a.contains subj then a ++ [subj] else a) acc
      (splitNTrimSpace rule.Destination "," true).foldl
        (fun a subj => if goHasPrefix subj "$" && !a.contains subj then a ++ [subj] else a) acc2)
    acc

/-- The address-set ID resolution loop of `ovnApplyToPortGroup`: look every
collected set name up in the project's address-set table (modelled as an
assoc list `name → ID`); a missing set fails the whole apply. -/
def resolveAddressSets (addressSetTable : List (String × Int)) : List String → Exc (List (String × Int))
  | [] => .ok []
  | setName :: rest =>
    let bare := goTrimPrefix setName "$"
    match goLookup addressSetTable bare with
    | none => .error ("Failed fetching address set " ++ bare)
    | some setID =>
      match resolveAddressSets addressSetTable rest with
      | .error e => .error e
      | .ok m => .ok ((bare, setID) :: m)

/-! ## Compiler (`ovnRuleCriteriaToOVNACLRule` and helpers) -/

/-- `ovnRulePortToOVNACLMatch`: lower a tcp/udp port criteria list into an
OVN match fragment. -/
def ovnRulePortToOVNACLMatch (protocol direction : String) (portCriteria : List String) : String :=
  goJoin " || "
    (portCriteria.map fun portCriterion =>
      match goSplitN2 portCriterion "-" with
      | [lo, hi] =>
        "(" ++ protocol ++ "." ++ direction ++ " >= " ++ lo ++ " && " ++
          protocol ++ "." ++ direction ++ " <= " ++ hi ++ ")"
      | [single] => protocol ++ "." ++ direction ++ " == " ++ single
      | _ => "")

/-- One step of `ovnRuleSubjectToOVNACLMatch`: lower a single subject
criterion, extending the accumulated field parts, network-specific flag and
needed peer list. -/
def ovnRuleSubjectStep (direction : String) (aclNameIDs : List (String × Int))
    (peerTargetNetIDs : List (NetworkPeerConnection × Int)) (subjectCriterion : String)
    (acc : List String × Bool × List NetworkPeerConnection) :
    Exc (List String × Bool × List NetworkPeerConnection) :=
  let fieldParts := acc.1
  let networkSpecific := acc.2.1
  let peersNeeded := acc.2.2
  if IsNetworkRangeB subjectCriterion then
    match goSplitN2 subjectCriterion "-" with
    | [lo, hi] =>
      match goParseIP lo with
      | some fam =>
        let protocol := if fam then "ip4" else "ip6"
        .ok (fieldParts ++
          ["(" ++ protocol ++ "." ++ direction ++ " >= " ++ lo ++ " && " ++
            protocol ++ "." ++ direction ++ " <= " ++ hi ++ ")"], networkSpecific, peersNeeded)
      | none => .ok (fieldParts, networkSpecific, peersNeeded)
    | _ => .error ("Invalid IP range " ++ subjectCriterion)
  else
    let parsed :=
      match goParseIP subjectCriterion with
      | some fam => some fam
      | none => parseCIDRFamily subjectCriterion
    match parsed with
    | some fam =>
      let protocol := if fam then "ip4" else "ip6"
      .ok (fieldParts ++ [protocol ++ "." ++ direction ++ " == " ++ subjectCriterion],
        networkSpecific, peersNeeded)
    | none =>
      if ruleSubjectInternalAliases.contains subjectCriterion then
        let portType := if direction == "dst" then "outport" else "inport"
        .ok (fieldParts ++ [portType ++ " == @" ++ ruleSubjectInternal], true, peersNeeded)
      else if ruleSubjectExternalAliases.contains subjectCriterion then
        let portType := if direction == "dst" then "outport" else "inport"
        .ok (fieldParts ++ [portType ++ " == @" ++ ruleSubjectExternal], true, peersNeeded)
      else if goHasPrefix subjectCriterion "$" then
        .ok (fieldParts ++
          ["ip6." ++ direction ++ " == " ++ subjectCriterion ++ "_ip6 || ip4." ++
            direction ++ " == " ++ subjectCriterion ++ "_ip4"], networkSpecific, peersNeeded)
      else if goHasPrefix subjectCriterion "@" then
        match goSplitN2 (goTrimPrefix subjectCriterion "@") "/" with
        | [netName, peerName] =>
          let peer : NetworkPeerConnection := ⟨netName, peerName⟩
          match (peerTargetNetIDs.find? (fun p => p.1 == peer)).map Prod.snd with
          | none => .error ("Cannot find network ID for peer " ++ subjectCriterion)
          | some networkID =>
            let addrSetName := OVNIntSwitchPortGroupAddressSetPrefix networkID
            .ok (fieldParts ++
              ["ip6." ++ direction ++ " == $" ++ addrSetName ++ "_ip6 || ip4." ++
                direction ++ " == $" ++ addrSetName ++ "_ip4"],
              networkSpecific, peersNeeded ++ [peer])
        | _ => .error ("Cannot parse subject as peer " ++ subjectCriterion)
      else
        match goLookup aclNameIDs subjectCriterion with
        | none => .error ("Cannot find security ACL ID for " ++ subjectCriterion)
        | some aclID =>
          let portType := if direction == "dst" then "outport" else "inport"
          .ok (fieldParts ++ [portType ++ " == @" ++ OVNACLPortGroupName aclID],
            networkSpecific, peersNeeded)

/-- The loop of `ovnRuleSubjectToOVNACLMatch` over all subject criteria. -/
def ovnRuleSubjectLoop (direction : String) (aclNameIDs : List (String × Int))
    (peerTargetNetIDs : List (NetworkPeerConnection × Int)) :
    List String → (List String × Bool × List NetworkPeerConnection) →
    Exc (List String × Bool × List NetworkPeerConnection)
  | [], acc => .ok acc
  | c :: rest, acc =>
    match ovnRuleSubjectStep direction aclNameIDs peerTargetNetIDs c acc with
    | .error e => .error e
    | .ok acc2 => ovnRuleSubjectLoop direction aclNameIDs peerTargetNetIDs rest acc2

/-- `ovnRuleSubjectToOVNACLMatch`: lower a subject criteria list into an OVN
match fragment plus the network-specific flag and the needed peers. -/
def ovnRuleSubjectToOVNACLMatch (direction : String) (aclNameIDs : List (String × Int))
    (peerTargetNetIDs : List (NetworkPeerConnection × Int)) (subjectCriteria : List String) :
    Exc (String × Bool × List NetworkPeerConnection) :=
  match ovnRuleSubjectLoop direction aclNameIDs peerTargetNetIDs subjectCriteria ([], false, []) with
  | .error e => .error e
  | .ok (fieldParts, networkSpecific, peersNeeded) =>
    .ok (goJoin " || " fieldParts, networkSpecific, peersNeeded)

/-- The action/priority switch of `ovnRuleCriteriaToOVNACLRule` (the Go
switch has no default case: an unknown action yields the zero values). -/
def ovnActionPriority (action : String) : String × Nat :=
  if action == "allow" then ("allow-related", ovnACLPriorityPortGroupAllow)
  else if action == "allow-stateless" then ("allow-stateless", ovnACLPriorityPortGroupAllow)
  else if action == "reject" then ("reject", ovnACLPriorityPortGroupReject)
  else if action == "drop" then ("drop", ovnACLPriorityPortGroupDrop)
  else ("", 0)

/-- The directional anchor of `ovnRuleCriteriaToOVNACLRule`'s match parts
(ingress filters on `outport`, egress on `inport`, anything else on both). -/
def ovnRuleDirectionParts (direction portGroupName : String) : List String :=
  if direction == "ingress" then ["outport == @" ++ portGroupName]
  else if direction == "egress" then ["inport == @" ++ portGroupName]
  else ["inport == @" ++ portGroupName ++ " || outport == @" ++ portGroupName]

/-- The subject-filter step of `ovnRuleCriteriaToOVNACLRule`: an empty
subject field contributes nothing, a non-empty one contributes its lowered
fragment (or fails). -/
def ovnRuleSubjectParts (direction : String) (aclNameIDs : List (String × Int))
    (peerTargetNetIDs : List (NetworkPeerConnection × Int)) (subjectField : String) :
    Exc (List String × Bool × List NetworkPeerConnection) :=
  if subjectField == "" then .ok ([], false, [])
  else
    match ovnRuleSubjectToOVNACLMatch direction aclNameIDs peerTargetNetIDs
        (splitNTrimSpace subjectField "," false) with
    | .error e => .error e
    | .ok (m, ns, ps) => .ok ([m], ns, ps)

/-- The protocol-filter block of `ovnRuleCriteriaToOVNACLRule`: protocol
literal plus port predicates for tcp/udp, protocol literal plus type/code
predicates for icmp4/icmp6, nothing otherwise. -/
def ovnRuleProtocolParts (rule : NetworkACLRule) : List String :=
  if rule.Protocol == "tcp" || rule.Protocol == "udp" then
    [rule.Protocol] ++
      (if rule.SourcePort == "" then []
       else [ovnRulePortToOVNACLMatch rule.Protocol "src"
          (splitNTrimSpace rule.SourcePort "," false)]) ++
      (if rule.DestinationPort == "" then []
       else [ovnRulePortToOVNACLMatch rule.Protocol "dst"
          (splitNTrimSpace rule.DestinationPort "," false)])
  else if rule.Protocol == "icmp4" || rule.Protocol == "icmp6" then
    [rule.Protocol] ++
      (if rule.ICMPType == "" then []
       else [rule.Protocol ++ ".type == " ++ rule.ICMPType]) ++
      (if rule.ICMPCode == "" then []
       else [rule.Protocol ++ ".code == " ++ rule.ICMPCode])
  else []

/-- The match-part assembly of `ovnRuleCriteriaToOVNACLRule`: directional
anchor, subject filters, protocol and port/ICMP filters, in source order. -/
def ovnRuleMatchParts (direction : String) (rule : NetworkACLRule) (portGroupName : String)
    (aclNameIDs : List (String × Int)) (peerTargetNetIDs : List (NetworkPeerConnection × Int)) :
    Exc (List String × Bool × List NetworkPeerConnection) :=
  match ovnRuleSubjectParts "src" aclNameIDs peerTargetNetIDs rule.Source with
  | .error e => .error e
  | .ok (srcParts, srcNS, srcPeers) =>
    match ovnRuleSubjectParts "dst" aclNameIDs peerTargetNetIDs rule.Destination with
    | .error e => .error e
    | .ok (dstParts, dstNS, dstPeers) =>
      .ok (ovnRuleDirectionParts direction portGroupName ++ srcParts ++ dstParts ++
            ovnRuleProtocolParts rule,
           srcNS || dstNS, srcPeers ++ dstPeers)

/-- `ovnRuleCriteriaToOVNACLRule`: convert one ACL rule into an OVN ACL rule
for a port group, returning also the network-specific flag and the peer
connections the rule depends on. -/
def ovnRuleCriteriaToOVNACLRule (direction : String) (rule : NetworkACLRule)
    (portGroupName : String) (aclNameIDs : List (String × Int))
    (peerTargetNetIDs : List (NetworkPeerConnection × Int)) :
    Exc (OVNACLRule × Bool × List NetworkPeerConnection) :=
  match ovnRuleMatchParts direction rule portGroupName aclNameIDs peerTargetNetIDs with
  | .error e => .error e
  | .ok (matchParts, networkSpecific, peersNeeded) =>
    let ap := ovnActionPriority rule.Action
    .ok ({ Direction := "to-lport", Action := ap.1, Priority := ap.2,
           Match := "(" ++ goJoin ") && (" matchParts ++ ")",
           Log := false, LogName := "" }, networkSpecific, peersNeeded)

/-- The address-set substitution applied to a rule before compiling it
(the loop mutates the Go `rule` copy's `Source` and `Destination`). -/
def ruleWithSetIDs (rule : NetworkACLRule) (addressSetIDs : List (String × Int)) : NetworkACLRule :=
  { rule with
    Source := replaceAddressSetNames rule.Source addressSetIDs,
    Destination := replaceAddressSetNames rule.Destination addressSetIDs }

/-- The logged-state marking of `convertACLRules`: a logged rule carries
`Log = true` and the `<PG>-<direction>-<index>` log name. -/
def markLogged (portGroupName direction : String) (ruleIndex : Nat) (state : String)
    (rule0 : OVNACLRule) : OVNACLRule :=
  if state == "logged" then
    { rule0 with
      Log := true,
      LogName := portGroupName ++ "-" ++ direction ++ "-" ++ toString ruleIndex }
  else rule0

/-- The `convertACLRules` closure of `ovnApplyToPortGroup`: walk one
direction's rule list, skipping disabled rules, substituting address-set
names, compiling each rule, marking logged rules, and routing every compiled
rule into the network-specific or the port-group list. -/
def convertACLRules (portGroupName : String) (aclNameIDs : List (String × Int))
    (peerTargetNetIDs : List (NetworkPeerConnection × Int)) (addressSetIDs : List (String × Int))
    (direction : String) :
    List NetworkACLRule → Nat → List OVNACLRule → List OVNACLRule →
    List NetworkPeerConnection →
    Exc (List OVNACLRule × List OVNACLRule × List NetworkPeerConnection)
  | [], _, accPG, accNet, accPeers => .ok (accPG, accNet, accPeers)
  | rule :: rest, ruleIndex, accPG, accNet, accPeers =>
    if rule.State == "disabled" then
      convertACLRules portGroupName aclNameIDs peerTargetNetIDs addressSetIDs direction
        rest (ruleIndex + 1) accPG accNet accPeers
    else
      match ovnRuleCriteriaToOVNACLRule direction (ruleWithSetIDs rule addressSetIDs)
          portGroupName aclNameIDs peerTargetNetIDs with
      | .error e => .error e
      | .ok (rule0, networkSpecific, rulePeers) =>
        if networkSpecific then
          convertACLRules portGroupName aclNameIDs peerTargetNetIDs addressSetIDs direction
            rest (ruleIndex + 1) accPG
            (accNet ++ [markLogged portGroupName direction ruleIndex rule.State rule0])
            (accPeers ++ rulePeers)
        else
          convertACLRules portGroupName aclNameIDs peerTargetNetIDs addressSetIDs direction
            rest (ruleIndex + 1)
            (accPG ++ [markLogged portGroupName direction ruleIndex rule.State rule0]) accNet
            (accPeers ++ rulePeers)

/-- The default catch-all rule appended to every port group's rule list. -/
def ovnDefaultRule (portGroupName : String) : OVNACLRule :=
  { Direction := "to-lport", Action := "drop",
    Priority := ovnACLPriorityPortGroupDefaultAction,
    Match := "(inport == @" ++ portGroupName ++ " || outport == @" ++ portGroupName ++ ")",
    Log := false, LogName := portGroupName }

/-- The pure compilation part of `ovnApplyToPortGroup`: collect and resolve
address sets, convert ingress then egress rules, and append the default
catch-all to the port-group list.  Returns the port-group rules, the
network-specific rules and the needed peer connections. -/
def ovnCompileACL (addressSetTable : List (String × Int)) (aclInfo : NetworkACL)
    (portGroupName : String) (aclNameIDs : List (String × Int))
    (peerTargetNetIDs : List (NetworkPeerConnection × Int)) :
    Exc (List OVNACLRule × List OVNACLRule × List NetworkPeerConnection) :=
  match resolveAddressSets addressSetTable
      (extractAddressSets aclInfo.Egress (extractAddressSets aclInfo.Ingress [])) with
  | .error e => .error e
  | .ok addressSetIDs =>
    match convertACLRules portGroupName aclNameIDs peerTargetNetIDs addressSetIDs "ingress"
        aclInfo.Ingress 0 [] [] [] with
    | .error e => .error e
    | .ok (pg1, net1, peers1) =>
      match convertACLRules portGroupName aclNameIDs peerTargetNetIDs addressSetIDs "egress"
          aclInfo.Egress 0 pg1 net1 peers1 with
      | .error e => .error e
      | .ok (pg2, net2, peers2) =>
        .ok (pg2 ++ [ovnDefaultRule portGroupName], net2, peers2)

/-! ## OVN Northbound state model

The OVN client (`ovn.NB`) is an external collaborator; the spec gives its
contract (§6): `GetPortGroupInfo` returns `("" , _)` for an absent group,
`CreatePortGroup` fails on a uniqueness conflict, `UpdatePortGroupACLRules`
atomically replaces a port group's rule set after applying the
`matchReplace` substitutions, and `DeletePortGroup` ignores missing names.
The Northbound database is modelled as an ordered association list of port
groups; a port group's UUID is modelled by its (unique, non-empty) name. -/

/-- One OVN port group record: owning project and current ACL rule set. -/
structure PortGroupRec where
  project : Int := 0
  acls : List OVNACLRule := []
deriving DecidableEq

/-- The OVN Northbound database state visible to the engine. -/
structure OVNState where
  groups : List (String × PortGroupRec)
deriving DecidableEq

/-- The names of the port groups present in a state, in order. -/
def pgNames (st : OVNState) : List String :=
  st.groups.map Prod.fst

/-- Find a port group by name. -/
def lookupPG (st : OVNState) (name : String) : Option PortGroupRec :=
  (st.groups.find? (fun g => g.1 == name)).map Prod.snd

/-- Model of `client.GetPortGroupInfo`: `(uuid, hasACLs)`, with `uuid = ""`
meaning absent (the UUID of a present group is modelled by its name). -/
def getPortGroupInfo (st : OVNState) (name : String) : String × Bool :=
  match lookupPG st name with
  | some rec => (name, !rec.acls.isEmpty)
  | none => ("", false)

/-- Model of `client.DeletePortGroup` on one name (missing names are not
errors). -/
def deletePG (name : String) (st : OVNState) : OVNState :=
  ⟨st.groups.filter (fun g => g.1 != name)⟩

/-- Replace the rule set of a named port group; `none` when absent. -/
def setPGRules (st : OVNState) (name : String) (rules : List OVNACLRule) : Option OVNState :=
  if (st.groups.find? (fun g => g.1 == name)).isSome then
    some ⟨st.groups.map (fun g => if g.1 == name then (g.1, { g.2 with acls := rules }) else g)⟩
  else none

/-- Kinds of port-group creation performed by `OVNEnsureACLs`, used to
instrument the event trace. -/
inductive EventKind where
  | placeholder
  | primary
  | perNet
deriving DecidableEq

/-- Instrumented trace events: forward-path port-group creations and rule
applications. -/
inductive Event where
  | create (kind : EventKind) (name : String)
  | applyRules (pg : String) (rules : List OVNACLRule)
deriving DecidableEq

/-- Simulation state threaded through `OVNEnsureACLs`: the OVN state, a
counter of mutating client calls with an optional injected failure index,
the event trace, and the rollback hook stack (newest first; each hook
deletes one created port group, exactly as the `reverter.Add` closures in
the source do). -/
structure Sim where
  ovn : OVNState
  calls : Nat := 0
  failAt : Option Nat := none
  trace : List Event := []
  hooks : List String := []
deriving DecidableEq

/-- Result of one stateful step: success or failure, in both cases carrying
the simulation state reached. -/
inductive SimStep where
  | ok (sim : Sim)
  | fail (e : String) (sim : Sim)
deriving DecidableEq

/-- The simulation state carried by a step result. -/
def simOf : SimStep → Sim
  | .ok sim => sim
  | .fail _ sim => sim

/-- Bump the mutation-call counter. -/
def bumpCalls (sim : Sim) : Sim :=
  { sim with calls := sim.calls + 1 }

/-- Whether the next mutating client call is the injected failure. -/
def injectFail (sim : Sim) : Bool :=
  sim.failAt == some sim.calls

/-- Model of `client.CreatePortGroup` followed by the source's
`reverter.Add(func() { client.DeletePortGroup(name) })`: on success the
group is appended and a delete hook for it is pushed.  Fails on injected
failure or on a uniqueness conflict. -/
def createPGTracked (kind : EventKind) (projectID : Int) (name : String) (sim : Sim) : SimStep :=
  if injectFail sim then .fail "injected failure: CreatePortGroup" (bumpCalls sim)
  else if (lookupPG sim.ovn name).isSome then .fail "object already exists" (bumpCalls sim)
  else
    .ok { bumpCalls sim with
      ovn := ⟨sim.ovn.groups ++ [(name, { project := projectID, acls := [] })]⟩,
      trace := sim.trace ++ [Event.create kind name],
      hooks := name :: sim.hooks }

/-- Apply the OVN client's `matchReplace` substitutions to a match string. -/
def applyMatchReplace (matchReplace : List (String × String)) (m : String) : String :=
  matchReplace.foldl (fun s kv => goReplaceAll s kv.1 kv.2) m

/-- The `matchReplace` substitution applied to a rule list before an
`UpdatePortGroupACLRules` submission. -/
def substituteRules (matchReplace : List (String × String)) (rules : List OVNACLRule) :
    List OVNACLRule :=
  rules.map (fun r => { r with Match := applyMatchReplace matchReplace r.Match })

/-- Model of `client.UpdatePortGroupACLRules`: atomically replace the named
port group's rule set with the given rules after `matchReplace`
substitution.  Fails on injected failure or when the group is absent. -/
def updatePGRulesTracked (pg : String) (matchReplace : List (String × String))
    (rules : List OVNACLRule) (sim : Sim) : SimStep :=
  if injectFail sim then .fail "injected failure: UpdatePortGroupACLRules" (bumpCalls sim)
  else
    match setPGRules sim.ovn pg (substituteRules matchReplace rules) with
    | none => .fail ("port group not found: " ++ pg) (bumpCalls sim)
    | some st2 =>
      .ok { bumpCalls sim with
        ovn := st2,
        trace := sim.trace ++ [Event.applyRules pg (substituteRules matchReplace rules)] }

/-- Run the rollback hook stack (newest first, i.e. LIFO over registration
order): delete every recorded port group. -/
def runHooks (hooks : List String) (st : OVNState) : OVNState :=
  hooks.foldl (fun s n => deletePG n s) st

/-! ## `ovnApplyToPortGroup` (stateful part) -/

/-- The peer validation loop of `ovnApplyToPortGroup`: first bound network
and needed peer whose network names differ, if any. -/
def findPeerViolation (aclNets : List NetworkACLUsage) (peersNeeded : List NetworkPeerConnection) :
    Option (NetworkACLUsage × NetworkPeerConnection) :=
  match aclNets with
  | [] => none
  | net :: rest =>
    match peersNeeded.find? (fun p => p.NetworkName != net.Name) with
    | some p => some (net, p)
    | none => findPeerViolation rest peersNeeded

/-- The per-network rule application loop of `ovnApplyToPortGroup`: for each
bound network, replace the per-ACL-per-network port group's rules with the
network-specific rules, substituting the `@@internal` / `@@external`
sentinels for that network's selectors. -/
def applyNetworkRules (aclName : String) (aclNameIDs : List (String × Int))
    (networkRules : List OVNACLRule) : List NetworkACLUsage → Sim → SimStep
  | [], sim => .ok sim
  | net :: rest, sim =>
    match updatePGRulesTracked (OVNACLNetworkPortGroupName (goLookupInt aclNameIDs aclName) net.ID)
        [("@" ++ ruleSubjectInternal, "@" ++ OVNIntSwitchPortGroupName net.ID),
         ("@" ++ ruleSubjectExternal, "\"" ++ OVNIntSwitchRouterPortName net.ID ++ "\"")]
        networkRules sim with
    | .fail e s => .fail e s
    | .ok s2 => applyNetworkRules aclName aclNameIDs networkRules rest s2

/-- `ovnApplyToPortGroup`: compile the ACL (pure part `ovnCompileACL`),
validate that every needed peer belongs to every bound network, then
atomically replace the main port group's rules and every bound network's
per-network port group rules. -/
def ovnApplyToPortGroupS (addressSetTable : List (String × Int)) (aclInfo : NetworkACL)
    (portGroupName : String) (aclNameIDs : List (String × Int))
    (aclNets : List NetworkACLUsage)
    (peerTargetNetIDs : List (NetworkPeerConnection × Int)) (sim : Sim) : SimStep :=
  match ovnCompileACL addressSetTable aclInfo portGroupName aclNameIDs peerTargetNetIDs with
  | .error e => .fail e sim
  | .ok (portGroupRules, networkRules, peersNeeded) =>
    match findPeerViolation aclNets peersNeeded with
    | some (net, peer) =>
      .fail ("ACL requiring peer " ++ peer.NetworkName ++ "/" ++ peer.PeerName ++
        " cannot be applied to network " ++ net.Name) sim
    | none =>
      match updatePGRulesTracked portGroupName [] portGroupRules sim with
      | .fail e s => .fail e s
      | .ok s1 => applyNetworkRules aclInfo.Name aclNameIDs networkRules aclNets s1

/-! ## `OVNEnsureACLs` -/

/-- Classification record for an ACL whose port group already exists. -/
structure ExistingStatus where
  name : String
  aclInfo : Option NetworkACL
  addACLNets : List NetworkACLUsage
deriving DecidableEq

/-- The initial name check of `OVNEnsureACLs`: every requested ACL name must
map to an ID. -/
def checkACLNames (aclNameIDs : List (String × Int)) : List String → Option String
  | [] => none
  | aclName :: rest =>
    if (goLookup aclNameIDs aclName).isSome then checkACLNames aclNameIDs rest
    else some ("Cannot find security ACL ID for " ++ aclName)

/-- The classification loop of `OVNEnsureACLs`: for each requested ACL,
query OVN for its port group; absent groups are queued for creation (with
the ACL body loaded from the catalog), present groups are queued as
existing, recording their missing per-network groups and loading the body
when the rules must be (re)applied. -/
def classifyACLs (catalog : List (String × NetworkACL)) (aclNameIDs : List (String × Int))
    (aclNets : List NetworkACLUsage) (reapplyRules : Bool) (st : OVNState) :
    List String → Exc (List (String × NetworkACL) × List ExistingStatus)
  | [] => .ok ([], [])
  | aclName :: rest =>
    let portGroupName := OVNACLPortGroupName (goLookupInt aclNameIDs aclName)
    let info := getPortGroupInfo st portGroupName
    if info.1 == "" then
      match goLookup catalog aclName with
      | none => .error ("Failed loading Network ACL " ++ aclName)
      | some aclInfo =>
        match classifyACLs catalog aclNameIDs aclNets reapplyRules st rest with
        | .error e => .error e
        | .ok (creates, existing) => .ok ((aclName, aclInfo) :: creates, existing)
    else
      let addACLNets := aclNets.filter (fun net =>
        (getPortGroupInfo st (OVNACLNetworkPortGroupName (goLookupInt aclNameIDs aclName) net.ID)).1 == "")
      if reapplyRules || !info.2 || !addACLNets.isEmpty then
        match goLookup catalog aclName with
        | none => .error ("Failed loading Network ACL " ++ aclName)
        | some aclInfo =>
          match classifyACLs catalog aclNameIDs aclNets reapplyRules st rest with
          | .error e => .error e
          | .ok (creates, existing) =>
            .ok (creates, ⟨aclName, some aclInfo, addACLNets⟩ :: existing)
      else
        match classifyACLs catalog aclNameIDs aclNets reapplyRules st rest with
        | .error e => .error e
        | .ok (creates, existing) => .ok (creates, ⟨aclName, none, addACLNets⟩ :: existing)

/-- The referenced-ACL discovery of `OVNEnsureACLs`: union the referenced
ACLs of all creation ACLs (plus, when reapplying, of the existing ACLs whose
bodies were loaded), then remove the creation ACLs themselves. -/
def collectReferencedACLs (creates : List (String × NetworkACL))
    (existing : List ExistingStatus) (reapplyRules : Bool) : List String :=
  let s1 := creates.foldl (fun acc ce => ovnAddReferencedACLs ce.2 acc) []
  let s2 :=
    if reapplyRules then
      existing.foldl
        (fun acc ex => match ex.aclInfo with
          | some info => ovnAddReferencedACLs info acc
          | none => acc) s1
    else s1
  s2.filter (fun n => !(creates.any (fun ce => ce.1 == n)))

/-- The placeholder-creation loop of `OVNEnsureACLs`: create an empty port
group for every referenced ACL whose group is absent, registering a delete
hook for each. -/
def placeholderLoop (projectID : Int) (aclNameIDs : List (String × Int)) :
    List String → Sim → SimStep
  | [], sim => .ok sim
  | aclName :: rest, sim =>
    if (getPortGroupInfo sim.ovn (OVNACLPortGroupName (goLookupInt aclNameIDs aclName))).1 == "" then
      match createPGTracked EventKind.placeholder projectID
          (OVNACLPortGroupName (goLookupInt aclNameIDs aclName)) sim with
      | .fail e s => .fail e s
      | .ok s2 => placeholderLoop projectID aclNameIDs rest s2
    else placeholderLoop projectID aclNameIDs rest sim

/-- The per-network port-group creation loop (used both when creating a new
ACL port group, over all bound networks, and for an existing ACL port group,
over its missing per-network groups). -/
def createNetPGsLoop (projectID : Int) (aclNameIDs : List (String × Int)) (aclName : String) :
    List NetworkACLUsage → Sim → SimStep
  | [], sim => .ok sim
  | net :: rest, sim =>
    match createPGTracked EventKind.perNet projectID
        (OVNACLNetworkPortGroupName (goLookupInt aclNameIDs aclName) net.ID) sim with
    | .fail e s => .fail e s
    | .ok s2 => createNetPGsLoop projectID aclNameIDs aclName rest s2

/-- The creation loop of `OVNEnsureACLs`: for each ACL queued for creation,
create its primary port group, its per-network port groups, and then apply
its compiled rules — note the interleaving: the rules of one creation ACL
are applied before the next creation ACL's port group is created. -/
def createACLsLoop (addressSetTable : List (String × Int)) (projectID : Int)
    (aclNameIDs : List (String × Int)) (aclNets : List NetworkACLUsage)
    (peerTargetNetIDs : List (NetworkPeerConnection × Int)) :
    List (String × NetworkACL) → Sim → SimStep
  | [], sim => .ok sim
  | (aclName, aclInfo) :: rest, sim =>
    match createPGTracked EventKind.primary projectID
        (OVNACLPortGroupName (goLookupInt aclNameIDs aclName)) sim with
    | .fail e s => .fail e s
    | .ok s1 =>
      match createNetPGsLoop projectID aclNameIDs aclName aclNets s1 with
      | .fail e s => .fail e s
      | .ok s2 =>
        match ovnApplyToPortGroupS addressSetTable aclInfo
            (OVNACLPortGroupName (goLookupInt aclNameIDs aclName)) aclNameIDs aclNets
            peerTargetNetIDs s2 with
        | .fail e s => .fail e s
        | .ok s3 =>
          createACLsLoop addressSetTable projectID aclNameIDs aclNets peerTargetNetIDs rest s3

/-- The existing-groups loop of `OVNEnsureACLs`: create any missing
per-network port groups, and reapply the rules when the ACL body was
loaded. -/
def existingACLsLoop (addressSetTable : List (String × Int)) (projectID : Int)
    (aclNameIDs : List (String × Int)) (aclNets : List NetworkACLUsage)
    (peerTargetNetIDs : List (NetworkPeerConnection × Int)) :
    List ExistingStatus → Sim → SimStep
  | [], sim => .ok sim
  | ex :: rest, sim =>
    match createNetPGsLoop projectID aclNameIDs ex.name ex.addACLNets sim with
    | .fail e s => .fail e s
    | .ok s1 =>
      match ex.aclInfo with
      | some aclInfo =>
        match ovnApplyToPortGroupS addressSetTable aclInfo
            (OVNACLPortGroupName (goLookupInt aclNameIDs ex.name)) aclNameIDs aclNets
            peerTargetNetIDs s1 with
        | .fail e s => .fail e s
        | .ok s2 =>
          existingACLsLoop addressSetTable projectID aclNameIDs aclNets peerTargetNetIDs rest s2
      | none =>
        existingACLsLoop addressSetTable projectID aclNameIDs aclNets peerTargetNetIDs rest s1

/-- The body of `OVNEnsureACLs` before error handling: name check,
classification, referenced-ACL discovery, placeholder creation, creation
ACLs (groups + rules), existing ACLs (missing groups + rule reapply). -/
def ensureACLsBody (catalog : List (String × NetworkACL)) (addressSetTable : List (String × Int))
    (projectID : Int) (aclNameIDs : List (String × Int)) (aclNets : List NetworkACLUsage)
    (peerTargetNetIDs : List (NetworkPeerConnection × Int)) (aclNames : List String)
    (reapplyRules : Bool) (sim : Sim) : SimStep :=
  match checkACLNames aclNameIDs aclNames with
  | some e => .fail e sim
  | none =>
    match classifyACLs catalog aclNameIDs aclNets reapplyRules sim.ovn aclNames with
    | .error e => .fail e sim
    | .ok (creates, existing) =>
      match placeholderLoop projectID aclNameIDs
          (collectReferencedACLs creates existing reapplyRules) sim with
      | .fail e s => .fail e s
      | .ok s1 =>
        match createACLsLoop addressSetTable projectID aclNameIDs aclNets peerTargetNetIDs
            creates s1 with
        | .fail e s => .fail e s
        | .ok s2 =>
          existingACLsLoop addressSetTable projectID aclNameIDs aclNets peerTargetNetIDs
            existing s2

/-- Result of `OVNEnsureACLs`: on success the caller-owned cleanup hook
stack (newest first) and the final simulation state; on failure the error
and the state after the deferred `reverter.Fail()` ran every registered
hook in LIFO order. -/
inductive EnsureResult where
  | done (cleanup : List String) (sim : Sim)
  | failed (e : String) (sim : Sim)
deriving DecidableEq

/-- The simulation state carried by an `EnsureResult`. -/
def EnsureResult.resultSim : EnsureResult → Sim
  | .done _ sim => sim
  | .failed _ sim => sim

/-- Whether an `EnsureResult` is a failure. -/
def EnsureResult.isFailed : EnsureResult → Bool
  | .failed _ _ => true
  | .done _ _ => false

/-- `OVNEnsureACLs`: run the reconciler body from a fresh reverter; on any
error run the rollback hooks registered so far (LIFO) and report the error;
on success hand the hook stack to the caller as the cleanup hook.  `failAt`
injects a failure at the n-th mutating OVN client call (counted from 0). -/
def OVNEnsureACLs (catalog : List (String × NetworkACL)) (addressSetTable : List (String × Int))
    (projectID : Int) (aclNameIDs : List (String × Int)) (aclNets : List NetworkACLUsage)
    (peerTargetNetIDs : List (NetworkPeerConnection × Int)) (aclNames : List String)
    (reapplyRules : Bool) (st : OVNState) (failAt : Option Nat) : EnsureResult :=
  match ensureACLsBody catalog addressSetTable projectID aclNameIDs aclNets peerTargetNetIDs
      aclNames reapplyRules { ovn := st, calls := 0, failAt := failAt, trace := [], hooks := [] } with
  | .ok sim => .done sim.hooks sim
  | .fail e simF => .failed e { simF with ovn := runHooks simF.hooks simF.ovn, hooks := [] }

/-! ## Valid actions (spec data model) -/

/-- The valid rule actions.  The spec's data model (§3) restricts every
rule's action to this set; the restriction is enforced by validation code
outside the embedded files. -/
def validActions : List String := ["allow", "allow-stateless", "reject", "drop"]

/-! ## Spec-side definitions for the match-grammar claims

These definitions follow the SPEC's words (§4.3 and §8 scenario 2), to be
compared with the compiler lowered from the source. -/

/-- Spec's words: a single port `P` lowers to `proto.dir == P`, a range
`A-B` to `(proto.dir >= A && proto.dir <= B)` (split at the first dash). -/
def specPortCriterionMatch (protocol direction c : String) : String :=
  if (goSplitN2 c "-").length == 2 then
    "(" ++ protocol ++ "." ++ direction ++ " >= " ++ (goSplitN2 c "-").headD "" ++ " && " ++
      protocol ++ "." ++ direction ++ " <= " ++ ((goSplitN2 c "-").getD 1 "") ++ ")"
  else protocol ++ "." ++ direction ++ " == " ++ (goSplitN2 c "-").headD ""

/-- Spec's words: multiple comma-separated port criteria are joined with
`" || "`. -/
def specPortMatch (protocol direction portField : String) : String :=
  goJoin " || " ((splitNTrimSpace portField "," false).map (specPortCriterionMatch protocol direction))

/-- Spec's words: the directional anchor is `outport == @PG` for ingress
and `inport == @PG` for egress. -/
def specDirectionalAnchor (direction portGroupName : String) : String :=
  if direction == "ingress" then "outport == @" ++ portGroupName
  else "inport == @" ++ portGroupName

/-- The subject fragment of a non-empty subject list, as produced by the
subject lowering (the claim describes the fragment's position, not its
text). -/
def specSubjectFragment (direction : String) (aclNameIDs : List (String × Int))
    (peerTargetNetIDs : List (NetworkPeerConnection × Int)) (subjectField : String) : String :=
  match ovnRuleSubjectToOVNACLMatch direction aclNameIDs peerTargetNetIDs
      (splitNTrimSpace subjectField "," false) with
  | .ok (m, _, _) => m
  | .error _ => ""

/-- Spec's words: for a tcp/udp rule the match parts are the directional
anchor, the subject fragments (when non-empty), the protocol literal, and
the port predicates (when non-empty), in that order. -/
def specTCPUDPMatchParts (direction : String) (rule : NetworkACLRule) (portGroupName : String)
    (aclNameIDs : List (String × Int)) (peerTargetNetIDs : List (NetworkPeerConnection × Int)) :
    List String :=
  [specDirectionalAnchor direction portGroupName] ++
    (if rule.Source == "" then []
     else [specSubjectFragment "src" aclNameIDs peerTargetNetIDs rule.Source]) ++
    (if rule.Destination == "" then []
     else [specSubjectFragment "dst" aclNameIDs peerTargetNetIDs rule.Destination]) ++
    [rule.Protocol] ++
    (if rule.SourcePort == "" then [] else [specPortMatch rule.Protocol "src" rule.SourcePort]) ++
    (if rule.DestinationPort == "" then []
     else [specPortMatch rule.Protocol "dst" rule.DestinationPort])

/-- Spec's words: the match string is the part list joined by `") && ("`
with outer parentheses. -/
def specJoinMatch (parts : List String) : String :=
  "(" ++ goJoin ") && (" parts ++ ")"

/-! ## Trace checkers (ordering claims about `OVNEnsureACLs`) -/

/-- Whether a trace event is a rule application. -/
def isApplyEvent : Event → Bool
  | .applyRules _ _ => true
  | .create _ _ => false

/-- Whether a trace event is a placeholder port-group creation. -/
def isPlaceholderCreate : Event → Bool
  | .create EventKind.placeholder _ => true
  | _ => false

/-- Whether a trace event creates the named port group (any kind). -/
def isCreateOf (name : String) : Event → Bool
  | .create _ n => n == name
  | _ => false

/-- Whether a trace event applies a rule set containing a rule whose match
references the named port group (via `@name`). -/
def applyMentions (name : String) : Event → Bool
  | .applyRules _ rules => rules.any (fun r => goContainsSub r.Match ("@" ++ name))
  | _ => false

/-- Scans a trace for a placeholder creation occurring after some rule
application (second argument: an application has already been seen). -/
def placeholderAfterApply : List Event → Bool → Bool
  | [], _ => false
  | e :: rest, seenApply =>
    if seenApply && isPlaceholderCreate e then true
    else placeholderAfterApply rest (seenApply || isApplyEvent e)

/-- Scans a trace for a rule application mentioning the named port group
that is followed (strictly later) by the creation of that port group. -/
def applyBeforeCreateOf (name : String) : List Event → Bool
  | [] => false
  | e :: rest =>
    (applyMentions name e && rest.any (isCreateOf name)) || applyBeforeCreateOf name rest

/-! ## Name bookkeeping for the rollback claim -/

/-- The port-group name list after running a delete-hook stack, computed on
names only. -/
def namesAfter (hooks : List String) (names : List String) : List String :=
  hooks.foldl (fun ns n => ns.filter (fun m => m != n)) names

/-- The rollback invariant: running the currently registered hooks from the
current OVN state restores exactly the initial port-group name list. -/
def SimNamesInv (st0 : OVNState) (sim : Sim) : Prop :=
  namesAfter sim.hooks (pgNames sim.ovn) = pgNames st0

/-! ## Reaper model (`OVNPortGroupDeleteIfUnused`)

The `UsedBy` walk over the database is driven by catalog code outside the
embedded files; its visitor callback (which is embedded source) is modelled
over an explicit list of usage records, each carrying what the callback
reads: the matched ACL names plus either the OVN network ID of the using
entity (instance NIC / network / profile NIC cases, which all behave
identically after the ignore filtering) or the name of a referring ACL. -/

/-- One usage record delivered to the `UsedBy` visitor. -/
inductive ACLUsage where
  | ovnEntity (matchedACLs : List String) (netID : Int)
  | aclRef (matchedACLs : List String) (referrer : String)
deriving DecidableEq

/-- Insert a string into a set modelled as a dedup list. -/
def addStr (l : List String) (s : String) : List String :=
  if l.contains s then l else l ++ [s]

/-- Remove a name from the removal candidate set. -/
def candidatesDelete (cands : List String) (name : String) : List String :=
  cands.filter (fun c => c != name)

/-- Record that `referrer`'s ruleset refers to ACL `key`. -/
def aclUsedAdd (m : List (String × List String)) (key referrer : String) :
    List (String × List String) :=
  match goLookup m key with
  | some _ =>
    m.map (fun p =>
      if p.1 == key then (p.1, if p.2.contains referrer then p.2 else p.2 ++ [referrer]) else p)
  | none => m ++ [(key, [referrer])]

/-- `hasKeeperPrefix`: whether the port group name starts with the per-ACL
port-group name of one of the keep ACLs. -/
def hasKeeperPrefix (aclNameIDs : List (String × Int)) (keepACLs : List String)
    (portGroup : String) : Bool :=
  keepACLs.any (fun keepACLName =>
    goHasPrefix portGroup (OVNACLPortGroupName (goLookupInt aclNameIDs keepACLName)))

/-- The initial removal candidate set: ACL-related port groups that do not
carry a keeper prefix. -/
def initialRemoveCandidates (aclNameIDs : List (String × Int)) (keepACLs : List String)
    (portGroups : List String) : List String :=
  portGroups.filter (fun pg =>
    goHasPrefix pg ovnACLPortGroupPrefix && !hasKeeperPrefix aclNameIDs keepACLs pg)

/-- The `UsedBy` visitor of `OVNPortGroupDeleteIfUnused` over the usage
records: OVN-entity usages mark their ACLs as OVN-used and drop the ACL and
per-ACL-per-network port groups from the candidates; ACL-ruleset usages are
recorded for the final indirect-reference pass. -/
def scanUsages (aclNameIDs : List (String × Int)) :
    List ACLUsage → List String × List String × List (String × List String) →
    List String × List String × List (String × List String)
  | [], st => st
  | ACLUsage.ovnEntity matched netID :: rest, (cands, ovnUsed, aclUsed) =>
    let cands2 := matched.foldl
      (fun c name =>
        candidatesDelete
          (candidatesDelete c (OVNACLPortGroupName (goLookupInt aclNameIDs name)))
          (OVNACLNetworkPortGroupName (goLookupInt aclNameIDs name) netID))
      cands
    let ovnUsed2 := matched.foldl addStr ovnUsed
    scanUsages aclNameIDs rest (cands2, ovnUsed2, aclUsed)
  | ACLUsage.aclRef matched referrer :: rest, (cands, ovnUsed, aclUsed) =>
    scanUsages aclNameIDs rest
      (cands, ovnUsed, matched.foldl (fun m k => aclUsedAdd m k referrer) aclUsed)

/-- The final pass of `OVNPortGroupDeleteIfUnused`: an ACL referenced only
by other ACL rulesets is kept iff one of its referrers is OVN-used. -/
def pruneACLReferenced (aclNameIDs : List (String × Int)) :
    List (String × List String) → List String → List String → List String
  | [], _, cands => cands
  | (aclName, refs) :: rest, ovnUsed, cands =>
    if refs.any (fun r => ovnUsed.contains r) then
      pruneACLReferenced aclNameIDs rest ovnUsed
        (candidatesDelete cands (OVNACLPortGroupName (goLookupInt aclNameIDs aclName)))
    else pruneACLReferenced aclNameIDs rest ovnUsed cands

/-- `OVNPortGroupDeleteIfUnused`, reduced to the port-group names it deletes
in its final batch: seed candidates and keep set, walk the usage records,
prune indirectly kept ACLs, and return what remains. -/
def OVNPortGroupDeleteIfUnusedRemoveList (aclNameIDs : List (String × Int))
    (keepACLs : List String) (portGroups : List String) (usages : List ACLUsage) : List String :=
  pruneACLReferenced aclNameIDs
    (scanUsages aclNameIDs usages
      (initialRemoveCandidates aclNameIDs keepACLs portGroups, keepACLs, [])).2.2
    (scanUsages aclNameIDs usages
      (initialRemoveCandidates aclNameIDs keepACLs portGroups, keepACLs, [])).2.1
    (scanUsages aclNameIDs usages
      (initialRemoveCandidates aclNameIDs keepACLs portGroups, keepACLs, [])).1

end IncusACL

namespace IncusResources

/-- The resource-inventory cache step of `GetResources` (package
`resources`), with time in seconds and the inventory abstracted to a value:
given the cache (`lastResources?`, `lastRun`) and the current time, either
return the cached inventory or recompute `fresh` and refresh the cache.
The cache-hit test transcribes the source condition
`lastResources != nil && lastRun.Add(10*time.Second).Before(time.Now())`,
i.e. `lastRun + 10 < now`. -/
def getResourcesStep {α : Type} (lastResources : Option α) (lastRun : Int) (now : Int)
    (fresh : α) : α × Option α × Int :=
  match lastResources with
  | some cached =>
    if lastRun + 10 < now then (cached, some cached, lastRun)
    else (fresh, some fresh, now)
  | none => (fresh, some fresh, now)

end IncusResources

namespace IncusACL

/-! ## Shared helper lemmas -/

/-- On success, the compiled rule's action and priority come from the
action/priority switch applied to the rule's action. -/
theorem ovnRuleCriteria_fields (direction : String) (rule : NetworkACLRule) (pg : String)
    (ids : List (String × Int)) (peerIDs : List (NetworkPeerConnection × Int))
    (out : OVNACLRule × Bool × List NetworkPeerConnection)
    (hok : ovnRuleCriteriaToOVNACLRule direction rule pg ids peerIDs = .ok out) :
    out.1.Action = (ovnActionPriority rule.Action).1 ∧
    out.1.Priority = (ovnActionPriority rule.Action).2 := by
  unfold ovnRuleCriteriaToOVNACLRule at hok
  cases hm : ovnRuleMatchParts direction rule pg ids peerIDs with
  | error e => rw [hm] at hok; exact absurd hok (by intro hh; cases hh)
  | ok triple =>
    rw [hm] at hok
    obtain ⟨mp, ns2, ps2⟩ := triple
    cases hok
    exact ⟨rfl, rfl⟩

/-! ## Claim theorems -/

/-- C10: the resource cache condition is inverted relative to the claim: a
call 5 seconds after a successful run recomputes the inventory (and resets
the cache), while a call 100 seconds after returns the stale cached value
without refreshing `lastRun`. -/
theorem claim_C10_cache_ttl_inverted :
    IncusResources.getResourcesStep (some 1) 0 5 (2 : Nat) = (2, some 2, 5) ∧
    IncusResources.getResourcesStep (some 1) 0 100 (2 : Nat) = (1, some 1, 0) := by
  exact ⟨rfl, rfl⟩

/-- C7 counterexample: a rule whose action is the unknown string `"bogus"`
does NOT fail compilation — `ovnRuleCriteriaToOVNACLRule` succeeds and emits
a rule with empty action and priority 0 (the Go action switch has no default
case). -/
theorem claim_C7_counterexample :
    ovnRuleCriteriaToOVNACLRule "ingress" { Action := "bogus", State := "enabled" }
        "incus_acl7" [] [] =
      .ok ({ Direction := "to-lport", Action := "", Priority := 0,
             Match := "(outport == @incus_acl7)", Log := false, LogName := "" },
           false, []) := by
  rfl

/-- C7 (amended): the compiler performs no action validation: a rule whose
action is not one of allow / allow-stateless / reject / drop is not
rejected; when the rest of the rule compiles, it is emitted with empty OVN
action and priority 0 (action validity is enforced by validation outside the
compiler). -/
theorem claim_C7_unknown_action_not_rejected (direction : String) (rule : NetworkACLRule)
    (pg : String) (ids : List (String × Int)) (peerIDs : List (NetworkPeerConnection × Int))
    (out : OVNACLRule × Bool × List NetworkPeerConnection)
    (hact : rule.Action ∉ validActions)
    (hok : ovnRuleCriteriaToOVNACLRule direction rule pg ids peerIDs = .ok out) :
    out.1.Action = "" ∧ out.1.Priority = 0 := by
  obtain ⟨ha, hp⟩ := ovnRuleCriteria_fields direction rule pg ids peerIDs out hok
  simp only [validActions, List.mem_cons, List.not_mem_nil, or_false, not_or] at hact
  obtain ⟨h1, h2, h3, h4⟩ := hact
  have hap : ovnActionPriority rule.Action = ("", 0) := by
    unfold ovnActionPriority
    simp [h1, h2, h3, h4]
  rw [ha, hp, hap]
  exact ⟨rfl, rfl⟩

/-- C7 witness: the amended theorem applied at a concrete unknown-action
rule. -/
theorem claim_C7_witness :
    ("bogus" : String) ∉ validActions ∧
    (({ Direction := "to-lport", Action := "", Priority := 0,
        Match := "(inport == @incus_acl9)", Log := false, LogName := "" } : OVNACLRule),
      false, ([] : List NetworkPeerConnection)).1.Action = "" ∧
    (({ Direction := "to-lport", Action := "", Priority := 0,
        Match := "(inport == @incus_acl9)", Log := false, LogName := "" } : OVNACLRule),
      false, ([] : List NetworkPeerConnection)).1.Priority = 0 := by
  refine ⟨by decide, ?_⟩
  exact claim_C7_unknown_action_not_rejected "egress" { Action := "bogus", State := "enabled" }
    "incus_acl9" [] [] _ (by decide) rfl

/-- C8: for a compiled rule, action `allow` is emitted as `allow-related`
and action `allow-stateless` passes through unchanged. -/
theorem claim_C8_allow_actions (direction : String) (rule : NetworkACLRule) (pg : String)
    (ids : List (String × Int)) (peerIDs : List (NetworkPeerConnection × Int))
    (out : OVNACLRule × Bool × List NetworkPeerConnection)
    (_hstate : rule.State ≠ "disabled")
    (hok : ovnRuleCriteriaToOVNACLRule direction rule pg ids peerIDs = .ok out) :
    (rule.Action = "allow" → out.1.Action = "allow-related") ∧
    (rule.Action = "allow-stateless" → out.1.Action = "allow-stateless") := by
  obtain ⟨ha, _⟩ := ovnRuleCriteria_fields direction rule pg ids peerIDs out hok
  constructor <;> intro hact <;> rw [ha, hact] <;> rfl

/-- C8 witness: both action mappings at concrete enabled rules. -/
theorem claim_C8_witness :
    ("enabled" : String) ≠ "disabled" ∧
    (({ Direction := "to-lport", Action := "allow-related", Priority := 300,
        Match := "(outport == @p)", Log := false, LogName := "" } : OVNACLRule),
      false, ([] : List NetworkPeerConnection)).1.Action = "allow-related" ∧
    (({ Direction := "to-lport", Action := "allow-stateless", Priority := 300,
        Match := "(outport == @p)", Log := false, LogName := "" } : OVNACLRule),
      false, ([] : List NetworkPeerConnection)).1.Action = "allow-stateless" := by
  refine ⟨by decide, ?_, ?_⟩
  · exact (claim_C8_allow_actions "ingress" { Action := "allow", State := "enabled" } "p" [] []
      _ (by decide) rfl).1 rfl
  · exact (claim_C8_allow_actions "ingress" { Action := "allow-stateless", State := "enabled" }
      "p" [] [] _ (by decide) rfl).2 rfl

/-- C5: evaluation at the failing input: the referenced-ACL collector does
NOT skip `$`-prefixed address-set tokens or `@net/peer` tokens — both are
added to the referenced-ACL set (the source only filters reserved aliases,
CIDRs and ranges before treating a token as an ACL name). -/
theorem claim_C5_dollar_and_peer_tokens_not_skipped :
    ovnAddReferencedACLs
      { Name := "web",
        Ingress := [{ Action := "allow", State := "enabled", Source := "$office,@mynet/mypeer" }],
        Egress := [] } [] = ["$office", "@mynet/mypeer"] := by
  rfl

/-- A valid action's switch priority is one of the three rule priorities. -/
theorem validAction_priority (a : String) (h : a ∈ validActions) :
    (ovnActionPriority a).2 = 300 ∨ (ovnActionPriority a).2 = 400 ∨
      (ovnActionPriority a).2 = 500 := by
  simp only [validActions, List.mem_cons, List.not_mem_nil, or_false] at h
  rcases h with h | h | h | h <;> subst h <;> simp [ovnActionPriority,
    ovnACLPriorityPortGroupAllow, ovnACLPriorityPortGroupReject, ovnACLPriorityPortGroupDrop]

/-- Through the `convertACLRules` loop, every compiled rule added to either
output list carries one of the three rule priorities, provided every enabled
input rule's action is valid. -/
theorem convertACLRules_priorities (pg : String) (ids : List (String × Int))
    (peerIDs : List (NetworkPeerConnection × Int)) (asids : List (String × Int))
    (direction : String) :
    ∀ (rules : List NetworkACLRule) (idx : Nat) (accPG accNet : List OVNACLRule)
      (accPeers : List NetworkPeerConnection)
      (outPG outNet : List OVNACLRule) (outPeers : List NetworkPeerConnection),
      convertACLRules pg ids peerIDs asids direction rules idx accPG accNet accPeers =
        .ok (outPG, outNet, outPeers) →
      (∀ r ∈ rules, r.State ≠ "disabled" → r.Action ∈ validActions) →
      (∀ r ∈ accPG, r.Priority = 300 ∨ r.Priority = 400 ∨ r.Priority = 500) →
      (∀ r ∈ accNet, r.Priority = 300 ∨ r.Priority = 400 ∨ r.Priority = 500) →
      (∀ r ∈ outPG, r.Priority = 300 ∨ r.Priority = 400 ∨ r.Priority = 500) ∧
      (∀ r ∈ outNet, r.Priority = 300 ∨ r.Priority = 400 ∨ r.Priority = 500)
  | [], idx, accPG, accNet, accPeers, outPG, outNet, outPeers, h, _, hPG, hNet => by
    cases h
    exact ⟨hPG, hNet⟩
  | rule :: rest, idx, accPG, accNet, accPeers, outPG, outNet, outPeers, h, wf, hPG, hNet => by
    rw [convertACLRules] at h
    by_cases hdis : (rule.State == "disabled") = true
    · rw [if_pos hdis] at h
      exact convertACLRules_priorities pg ids peerIDs asids direction rest (idx + 1)
        accPG accNet accPeers outPG outNet outPeers h
        (fun r hr hs => wf r (List.mem_cons_of_mem rule hr) hs) hPG hNet
    · rw [if_neg hdis] at h
      split at h
      · exact absurd h (by intro hh; cases hh)
      · rename_i rule0 networkSpecific rulePeers heq
        have hfields := ovnRuleCriteria_fields direction (ruleWithSetIDs rule asids) pg ids
          peerIDs (rule0, networkSpecific, rulePeers) heq
        have hact : (ruleWithSetIDs rule asids).Action = rule.Action := rfl
        have hvalid : rule.Action ∈ validActions := by
          refine wf rule (List.mem_cons_self rule rest) ?_
          intro hs
          exact hdis (by rw [hs]; rfl)
        have hprio0 : rule0.Priority = 300 ∨ rule0.Priority = 400 ∨ rule0.Priority = 500 := by
          have hp2 := hfields.2
          simp only at hp2
          rw [hp2, hact]
          exact validAction_priority rule.Action hvalid
        have hprioR : (markLogged pg direction idx rule.State rule0).Priority =
            rule0.Priority := by
          unfold markLogged
          by_cases hb : (rule.State == "logged") = true
          · rw [if_pos hb]
          · rw [if_neg hb]
        split at h
        · refine convertACLRules_priorities pg ids peerIDs asids direction rest (idx + 1)
            accPG _ _ outPG outNet outPeers h
            (fun r hr hs => wf r (List.mem_cons_of_mem rule hr) hs) hPG ?_
          intro r hr
          rcases List.mem_append.mp hr with hr | hr
          · exact hNet r hr
          · rw [List.mem_singleton.mp hr, hprioR]
            exact hprio0
        · refine convertACLRules_priorities pg ids peerIDs asids direction rest (idx + 1)
            _ accNet _ outPG outNet outPeers h
            (fun r hr hs => wf r (List.mem_cons_of_mem rule hr) hs) ?_ hNet
          intro r hr
          rcases List.mem_append.mp hr with hr | hr
          · exact hPG r hr
          · rw [List.mem_singleton.mp hr, hprioR]
            exact hprio0

/-- C1: under the spec's data-model invariant that every enabled rule's
action is valid, a successful compile emits only priorities 0, 300, 400 and
500; the port-group rule list contains exactly one priority-0 rule — the
default catch-all, whose action is `drop` and whose match is
`(inport == @PG || outport == @PG)`. -/
theorem claim_C1_priorities_and_default (addressSetTable : List (String × Int))
    (aclInfo : NetworkACL) (pg : String) (ids : List (String × Int))
    (peerIDs : List (NetworkPeerConnection × Int))
    (pgRules netRules : List OVNACLRule) (peers : List NetworkPeerConnection)
    (hok : ovnCompileACL addressSetTable aclInfo pg ids peerIDs = .ok (pgRules, netRules, peers))
    (wf : ∀ r ∈ aclInfo.Ingress ++ aclInfo.Egress, r.State ≠ "disabled" →
      r.Action ∈ validActions) :
    (∀ r ∈ pgRules ++ netRules,
      r.Priority = 0 ∨ r.Priority = 300 ∨ r.Priority = 400 ∨ r.Priority = 500) ∧
    pgRules.filter (fun r => r.Priority == 0) = [ovnDefaultRule pg] ∧
    (ovnDefaultRule pg).Action = "drop" ∧
    (ovnDefaultRule pg).Match = "(inport == @" ++ pg ++ " || outport == @" ++ pg ++ ")" := by
  unfold ovnCompileACL at hok
  cases hres : resolveAddressSets addressSetTable
      (extractAddressSets aclInfo.Egress (extractAddressSets aclInfo.Ingress [])) with
  | error e =>
    rw [hres] at hok
    simp only at hok
    exact absurd hok (by intro hh; cases hh)
  | ok asids =>
    rw [hres] at hok
    simp only at hok
    cases hc1 : convertACLRules pg ids peerIDs asids "ingress" aclInfo.Ingress 0 [] [] [] with
    | error e =>
      rw [hc1] at hok
      exact absurd hok (by intro hh; cases hh)
    | ok t1 =>
      rw [hc1] at hok
      obtain ⟨pg1, net1, peers1⟩ := t1
      simp only at hok
      cases hc2 : convertACLRules pg ids peerIDs asids "egress" aclInfo.Egress 0 pg1 net1 peers1 with
      | error e => rw [hc2] at hok; exact absurd hok (by intro hh; cases hh)
      | ok t2 =>
        rw [hc2] at hok
        obtain ⟨pg2, net2, peers2⟩ := t2
        simp only at hok
        injection hok with htrip
        rw [Prod.mk.injEq, Prod.mk.injEq] at htrip
        obtain ⟨hA, hB, hC⟩ := htrip
        subst hA
        subst hB
        subst hC
        have wfIn : ∀ r ∈ aclInfo.Ingress, r.State ≠ "disabled" → r.Action ∈ validActions :=
          fun r hr => wf r (List.mem_append.mpr (Or.inl hr))
        have wfEg : ∀ r ∈ aclInfo.Egress, r.State ≠ "disabled" → r.Action ∈ validActions :=
          fun r hr => wf r (List.mem_append.mpr (Or.inr hr))
        have h1 := convertACLRules_priorities pg ids peerIDs asids "ingress" aclInfo.Ingress 0
          [] [] [] pg1 net1 peers1 hc1 wfIn (by intro r hr; cases hr) (by intro r hr; cases hr)
        have h2 := convertACLRules_priorities pg ids peerIDs asids "egress" aclInfo.Egress 0
          pg1 net1 peers1 pg2 net2 peers2 hc2 wfEg h1.1 h1.2
        have hzero : (ovnDefaultRule pg).Priority = 0 := rfl
        refine ⟨?_, ?_, rfl, rfl⟩
        · intro r hr
          rcases List.mem_append.mp hr with hr | hr
          · rcases List.mem_append.mp hr with hr | hr
            · rcases h2.1 r hr with h | h | h
              · exact Or.inr (Or.inl h)
              · exact Or.inr (Or.inr (Or.inl h))
              · exact Or.inr (Or.inr (Or.inr h))
            · rw [List.mem_singleton.mp hr, hzero]
              exact Or.inl rfl
          · rcases h2.2 r hr with h | h | h
            · exact Or.inr (Or.inl h)
            · exact Or.inr (Or.inr (Or.inl h))
            · exact Or.inr (Or.inr (Or.inr h))
        · rw [List.filter_append]
          have hnil : pg2.filter (fun r => r.Priority == 0) = [] := by
            refine List.filter_eq_nil_iff.mpr ?_
            intro r hr
            rcases h2.1 r hr with h | h | h <;> simp [h]
          rw [hnil]
          simp [ovnDefaultRule, ovnACLPriorityPortGroupDefaultAction]


/-- C1 witness: the priorities/default-rule theorem applied to a concrete
single-rule ACL compiled for port group `incus_acl7`. -/
theorem claim_C1_witness :
    (∀ r ∈ ([{ Direction := "to-lport", Action := "allow-related", Priority := 300,
               Match := "(outport == @incus_acl7) && (tcp) && (tcp.dst == 80)",
               Log := false, LogName := "" },
             ovnDefaultRule "incus_acl7"] : List OVNACLRule) ++ ([] : List OVNACLRule),
      r.Priority = 0 ∨ r.Priority = 300 ∨ r.Priority = 400 ∨ r.Priority = 500) ∧
    ([{ Direction := "to-lport", Action := "allow-related", Priority := 300,
        Match := "(outport == @incus_acl7) && (tcp) && (tcp.dst == 80)",
        Log := false, LogName := "" },
      ovnDefaultRule "incus_acl7"] : List OVNACLRule).filter (fun r => r.Priority == 0) =
      [ovnDefaultRule "incus_acl7"] ∧
    (ovnDefaultRule "incus_acl7").Action = "drop" ∧
    (ovnDefaultRule "incus_acl7").Match =
      "(inport == @" ++ "incus_acl7" ++ " || outport == @" ++ "incus_acl7" ++ ")" := by
  exact claim_C1_priorities_and_default []
    { Name := "w",
      Ingress := [{ Action := "allow", State := "enabled", Protocol := "tcp",
                    DestinationPort := "80" }],
      Egress := [] }
    "incus_acl7" [] [] _ _ _ rfl (by decide)

/-- The Go split result is never the empty list. -/
theorem charsSplitGo_ne_nil (fuel : Nat) :
    ∀ (s pat cur : List Char), charsSplitGo fuel s pat cur ≠ [] := by
  induction fuel with
  | zero => intro s pat cur; simp [charsSplitGo]
  | succ n ih =>
    intro s pat cur
    cases s with
    | nil => simp [charsSplitGo]
    | cons c rest =>
      simp only [charsSplitGo]
      by_cases hp : pat ≠ [] ∧ pat.isPrefixOf (c :: rest)
      · rw [if_pos hp]
        exact List.cons_ne_nil _ _
      · rw [if_neg hp]
        exact ih rest pat (cur ++ [c])

/-- `goSplit` never returns the empty list. -/
theorem goSplit_ne_nil (s sep : String) : goSplit s sep ≠ [] := by
  unfold goSplit
  intro h
  exact charsSplitGo_ne_nil (s.data.length + 1) s.data sep.data []
    (List.map_eq_nil_iff.mp h)

/-- `goSplitN2` returns one or two elements. -/
theorem goSplitN2_shape (s sep : String) :
    (∃ x, goSplitN2 s sep = [x]) ∨ ∃ x y, goSplitN2 s sep = [x, y] := by
  unfold goSplitN2
  cases h : goSplit s sep with
  | nil => exact absurd h (goSplit_ne_nil s sep)
  | cons x t =>
    cases t with
    | nil => exact Or.inl ⟨x, rfl⟩
    | cons y r => exact Or.inr ⟨x, goJoin sep (y :: r), rfl⟩

/-- The port lowering agrees with the spec's per-criterion description. -/
theorem ovnRulePort_eq_spec (protocol direction : String) (cs : List String) :
    ovnRulePortToOVNACLMatch protocol direction cs =
      goJoin " || " (cs.map (specPortCriterionMatch protocol direction)) := by
  unfold ovnRulePortToOVNACLMatch
  congr 1
  have hfun : ∀ c, (match goSplitN2 c "-" with
      | [lo, hi] =>
        "(" ++ protocol ++ "." ++ direction ++ " >= " ++ lo ++ " && " ++
          protocol ++ "." ++ direction ++ " <= " ++ hi ++ ")"
      | [single] => protocol ++ "." ++ direction ++ " == " ++ single
      | _ => "") = specPortCriterionMatch protocol direction c := by
    intro c
    unfold specPortCriterionMatch
    rcases goSplitN2_shape c "-" with ⟨x, hx⟩ | ⟨x, y, hxy⟩
    · rw [hx]
      rw [if_neg (by simp : ¬(([x].length == 2) = true))]
      rfl
    · rw [hxy]
      rw [if_pos (by simp : (([x, y].length == 2) = true))]
      rfl
  exact List.map_congr_left (fun c _ => hfun c)

/-- The directional anchor agrees with the spec's description for ingress
and egress. -/
theorem ovnRuleDirectionParts_spec (direction pg : String)
    (hd : direction = "ingress" ∨ direction = "egress") :
    ovnRuleDirectionParts direction pg = [specDirectionalAnchor direction pg] := by
  rcases hd with hd | hd <;> subst hd <;> rfl

/-- A successful subject-parts step produces exactly the spec-side optional
fragment. -/
theorem ovnRuleSubjectParts_spec (direction : String) (ids : List (String × Int))
    (peerIDs : List (NetworkPeerConnection × Int)) (f : String)
    (t : List String × Bool × List NetworkPeerConnection)
    (h : ovnRuleSubjectParts direction ids peerIDs f = .ok t) :
    t.1 = if f == "" then [] else [specSubjectFragment direction ids peerIDs f] := by
  unfold ovnRuleSubjectParts at h
  by_cases hf : (f == "") = true
  · rw [if_pos hf] at h
    cases h
    rw [if_pos hf]
  · rw [if_neg hf] at h
    rw [if_neg hf]
    unfold specSubjectFragment
    cases hm : ovnRuleSubjectToOVNACLMatch direction ids peerIDs
        (splitNTrimSpace f "," false) with
    | error e => rw [hm] at h; exact absurd h (by intro hh; cases hh)
    | ok triple =>
      rw [hm] at h
      obtain ⟨m, ns, ps⟩ := triple
      cases h
      rfl

/-- For a tcp/udp rule the protocol-filter block is the protocol literal
followed by the spec-side port predicates. -/
theorem ovnRuleProtocolParts_spec (rule : NetworkACLRule)
    (hp : rule.Protocol = "tcp" ∨ rule.Protocol = "udp") :
    ovnRuleProtocolParts rule =
      [rule.Protocol] ++
        (if rule.SourcePort == "" then []
         else [specPortMatch rule.Protocol "src" rule.SourcePort]) ++
        (if rule.DestinationPort == "" then []
         else [specPortMatch rule.Protocol "dst" rule.DestinationPort]) := by
  unfold ovnRuleProtocolParts specPortMatch
  have hcond : (rule.Protocol == "tcp" || rule.Protocol == "udp") = true := by
    rcases hp with hp | hp <;> rw [hp] <;> decide
  rw [if_pos hcond]
  rw [ovnRulePort_eq_spec, ovnRulePort_eq_spec]

/-- The full match-part list of a tcp/udp ingress/egress rule agrees with
the spec's description. -/
theorem ovnRuleMatchParts_spec (direction : String) (rule : NetworkACLRule) (pg : String)
    (ids : List (String × Int)) (peerIDs : List (NetworkPeerConnection × Int))
    (t : List String × Bool × List NetworkPeerConnection)
    (hd : direction = "ingress" ∨ direction = "egress")
    (hp : rule.Protocol = "tcp" ∨ rule.Protocol = "udp")
    (h : ovnRuleMatchParts direction rule pg ids peerIDs = .ok t) :
    t.1 = specTCPUDPMatchParts direction rule pg ids peerIDs := by
  unfold ovnRuleMatchParts at h
  cases hs : ovnRuleSubjectParts "src" ids peerIDs rule.Source with
  | error e => rw [hs] at h; exact absurd h (by intro hh; cases hh)
  | ok ts =>
    rw [hs] at h
    obtain ⟨srcParts, srcNS, srcPeers⟩ := ts
    cases hdst : ovnRuleSubjectParts "dst" ids peerIDs rule.Destination with
    | error e => rw [hdst] at h; exact absurd h (by intro hh; cases hh)
    | ok td =>
      rw [hdst] at h
      obtain ⟨dstParts, dstNS, dstPeers⟩ := td
      cases h
      have h1 := ovnRuleSubjectParts_spec "src" ids peerIDs rule.Source
        (srcParts, srcNS, srcPeers) hs
      have h2 := ovnRuleSubjectParts_spec "dst" ids peerIDs rule.Destination
        (dstParts, dstNS, dstPeers) hdst
      simp only at h1 h2
      unfold specTCPUDPMatchParts
      rw [ovnRuleDirectionParts_spec direction pg hd, ovnRuleProtocolParts_spec rule hp,
        h1, h2]
      simp [List.append_assoc]

/-- C2: for an ingress/egress tcp-or-udp rule that compiles successfully,
the emitted match string is the spec-side part list (directional anchor,
optional subject fragments, protocol literal, optional port predicates)
joined by `") && ("` with outer parentheses; and the port lowering agrees
with the spec's single/range/join description on every criteria list. -/
theorem claim_C2_match_structure (direction : String) (rule : NetworkACLRule) (pg : String)
    (ids : List (String × Int)) (peerIDs : List (NetworkPeerConnection × Int))
    (out : OVNACLRule × Bool × List NetworkPeerConnection)
    (hd : direction = "ingress" ∨ direction = "egress")
    (hp : rule.Protocol = "tcp" ∨ rule.Protocol = "udp")
    (hok : ovnRuleCriteriaToOVNACLRule direction rule pg ids peerIDs = .ok out) :
    out.1.Match = specJoinMatch (specTCPUDPMatchParts direction rule pg ids peerIDs) ∧
    ∀ (protocol direction2 : String) (cs : List String),
      ovnRulePortToOVNACLMatch protocol direction2 cs =
        goJoin " || " (cs.map (specPortCriterionMatch protocol direction2)) := by
  refine ⟨?_, fun p d cs => ovnRulePort_eq_spec p d cs⟩
  unfold ovnRuleCriteriaToOVNACLRule at hok
  cases hm : ovnRuleMatchParts direction rule pg ids peerIDs with
  | error e => rw [hm] at hok; exact absurd hok (by intro hh; cases hh)
  | ok triple =>
    rw [hm] at hok
    obtain ⟨mp, ns, ps⟩ := triple
    cases hok
    have := ovnRuleMatchParts_spec direction rule pg ids peerIDs (mp, ns, ps) hd hp hm
    simp only at this
    unfold specJoinMatch
    simp only
    rw [this]

/-- C2 witness: the spec's port-range scenario — ingress udp with source
ports `53,1000-2000` on port group `incus_acl7`. -/
theorem claim_C2_witness :
    (({ Direction := "to-lport", Action := "allow-related", Priority := 300,
        Match := "(outport == @incus_acl7) && (udp) && (udp.src == 53 || (udp.src >= 1000 && udp.src <= 2000))",
        Log := false, LogName := "" } : OVNACLRule),
      false, ([] : List NetworkPeerConnection)).1.Match =
      specJoinMatch (specTCPUDPMatchParts "ingress"
        { Action := "allow", State := "enabled", Protocol := "udp",
          SourcePort := "53,1000-2000" } "incus_acl7" [] []) ∧
    ∀ (protocol direction2 : String) (cs : List String),
      ovnRulePortToOVNACLMatch protocol direction2 cs =
        goJoin " || " (cs.map (specPortCriterionMatch protocol direction2)) := by
  exact claim_C2_match_structure "ingress"
    { Action := "allow", State := "enabled", Protocol := "udp", SourcePort := "53,1000-2000" }
    "incus_acl7" [] [] _ (Or.inl rfl) (Or.inr rfl) rfl


/-- A first network/peer mismatch exists whenever some bound network's name
differs from some needed peer's network name. -/
theorem findPeerViolation_isSome (aclNets : List NetworkACLUsage)
    (peersNeeded : List NetworkPeerConnection) (net : NetworkACLUsage)
    (p : NetworkPeerConnection) (hn : net ∈ aclNets) (hp : p ∈ peersNeeded)
    (hne : net.Name ≠ p.NetworkName) :
    ∃ v, findPeerViolation aclNets peersNeeded = some v := by
  induction aclNets with
  | nil => cases hn
  | cons n rest ih =>
    cases hf : peersNeeded.find? (fun q => q.NetworkName != n.Name) with
    | some q => exact ⟨(n, q), by rw [findPeerViolation, hf]⟩
    | none =>
      rcases List.mem_cons.mp hn with heq | hmem
      · exfalso
        have hall := List.find?_eq_none.mp hf p hp
        rw [Bool.not_eq_true, bne_eq_false_iff_eq] at hall
        exact hne (heq ▸ hall.symm)
      · obtain ⟨v, hv⟩ := ih hmem
        exact ⟨v, by rw [findPeerViolation, hf]; exact hv⟩

/-- C6: when a compiled rule of the ACL needs a peer connection whose
network name differs from some bound network's name, applying the ACL fails
with the peer error and the OVN state is untouched (no rule set is written
before the peer validation). -/
theorem claim_C6_peer_validation (addressSetTable : List (String × Int))
    (aclInfo : NetworkACL) (pg : String) (ids : List (String × Int))
    (aclNets : List NetworkACLUsage) (peerIDs : List (NetworkPeerConnection × Int))
    (sim : Sim) (pgRules netRules : List OVNACLRule)
    (peersNeeded : List NetworkPeerConnection) (net : NetworkACLUsage)
    (p : NetworkPeerConnection)
    (hok : ovnCompileACL addressSetTable aclInfo pg ids peerIDs =
      .ok (pgRules, netRules, peersNeeded))
    (hnet : net ∈ aclNets) (hp : p ∈ peersNeeded) (hne : net.Name ≠ p.NetworkName) :
    ∃ e, ovnApplyToPortGroupS addressSetTable aclInfo pg ids aclNets peerIDs sim =
      .fail e sim := by
  obtain ⟨v, hv⟩ := findPeerViolation_isSome aclNets peersNeeded net p hnet hp hne
  obtain ⟨vn, vp⟩ := v
  refine ⟨"ACL requiring peer " ++ vp.NetworkName ++ "/" ++ vp.PeerName ++
    " cannot be applied to network " ++ vn.Name, ?_⟩
  unfold ovnApplyToPortGroupS
  simp only [hok, hv]

/-- C6 witness: the peer theorem at the spec's scenario — a rule needing
peer `mynet/mypeer` applied while bound to network `othernet`. -/
theorem claim_C6_witness :
    ∃ e, ovnApplyToPortGroupS []
      { Name := "p",
        Egress := [{ Action := "allow", State := "enabled", Destination := "@mynet/mypeer" }] }
      "incus_acl5" [("p", 5)] [⟨"othernet", 31⟩] [(⟨"mynet", "mypeer"⟩, 12)]
      { ovn := ⟨[]⟩ } =
      .fail e { ovn := ⟨[]⟩ } := by
  refine claim_C6_peer_validation [] _ "incus_acl5" [("p", 5)] [⟨"othernet", 31⟩]
    [(⟨"mynet", "mypeer"⟩, 12)] { ovn := ⟨[]⟩ }
    [{ Direction := "to-lport", Action := "allow-related", Priority := 300,
       Match := "(inport == @incus_acl5) && (ip6.dst == $incus_net12_routes_ip6 || ip4.dst == $incus_net12_routes_ip4)",
       Log := false, LogName := "" },
     ovnDefaultRule "incus_acl5"] []
    [⟨"mynet", "mypeer"⟩] ⟨"othernet", 31⟩ ⟨"mynet", "mypeer"⟩
    rfl (List.mem_singleton.mpr rfl) (List.mem_singleton.mpr rfl) (by decide)

/-- Removing an element never adds candidates. -/
theorem notMem_candidatesDelete (cands : List String) (name x : String)
    (h : x ∉ cands) : x ∉ candidatesDelete cands name :=
  fun hm => h (List.mem_of_mem_filter hm)

/-- The per-usage candidate fold only removes candidates. -/
theorem foldlDelete_notMem (ids : List (String × Int)) (netID : Int) :
    ∀ (matched : List String) (cands : List String) (x : String), x ∉ cands →
      x ∉ matched.foldl
        (fun c name =>
          candidatesDelete
            (candidatesDelete c (OVNACLPortGroupName (goLookupInt ids name)))
            (OVNACLNetworkPortGroupName (goLookupInt ids name) netID))
        cands
  | [], _, _, h => h
  | name :: rest, cands, x, h =>
    foldlDelete_notMem ids netID rest
      (candidatesDelete
        (candidatesDelete cands (OVNACLPortGroupName (goLookupInt ids name)))
        (OVNACLNetworkPortGroupName (goLookupInt ids name) netID)) x
      (notMem_candidatesDelete _ _ _ (notMem_candidatesDelete _ _ _ h))

/-- The usage scan only removes candidates. -/
theorem scanUsages_notMem (ids : List (String × Int)) :
    ∀ (usages : List ACLUsage) (cands ovnUsed : List String)
      (aclUsed : List (String × List String)) (x : String),
      x ∉ cands → x ∉ (scanUsages ids usages (cands, ovnUsed, aclUsed)).1
  | [], _, _, _, _, h => h
  | ACLUsage.ovnEntity matched netID :: rest, cands, ovnUsed, aclUsed, x, h => by
    rw [scanUsages]
    exact scanUsages_notMem ids rest _ _ _ x (foldlDelete_notMem ids netID matched cands x h)
  | ACLUsage.aclRef matched referrer :: rest, cands, ovnUsed, aclUsed, x, h => by
    rw [scanUsages]
    exact scanUsages_notMem ids rest _ _ _ x h

/-- The indirect-reference prune only removes candidates. -/
theorem pruneACLReferenced_notMem (ids : List (String × Int)) :
    ∀ (l : List (String × List String)) (ovnUsed cands : List String) (x : String),
      x ∉ cands → x ∉ pruneACLReferenced ids l ovnUsed cands
  | [], _, _, _, h => h
  | (aclName, refs) :: rest, ovnUsed, cands, x, h => by
    rw [pruneACLReferenced]
    by_cases hc : (refs.any fun r => ovnUsed.contains r) = true
    · rw [if_pos hc]
      exact pruneACLReferenced_notMem ids rest ovnUsed _ x (notMem_candidatesDelete _ _ _ h)
    · rw [if_neg hc]
      exact pruneACLReferenced_notMem ids rest ovnUsed cands x h

/-- C9: a port group whose name starts with the per-ACL port-group name of
an ACL in `keepACLs` is excluded from the removal candidate set up front and
is therefore never in the final deletion batch. -/
theorem claim_C9_keeper_prefix_never_deleted (aclNameIDs : List (String × Int))
    (keepACLs : List String) (portGroups : List String) (usages : List ACLUsage)
    (keep pg : String) (hk : keep ∈ keepACLs)
    (hpre : goHasPrefix pg (OVNACLPortGroupName (goLookupInt aclNameIDs keep)) = true) :
    pg ∉ OVNPortGroupDeleteIfUnusedRemoveList aclNameIDs keepACLs portGroups usages := by
  have h0 : pg ∉ initialRemoveCandidates aclNameIDs keepACLs portGroups := by
    intro hm
    have hpred := List.of_mem_filter hm
    have hkp : hasKeeperPrefix aclNameIDs keepACLs pg = true :=
      List.any_eq_true.mpr ⟨keep, hk, hpre⟩
    rw [hkp] at hpred
    simp at hpred
  unfold OVNPortGroupDeleteIfUnusedRemoveList
  exact pruneACLReferenced_notMem aclNameIDs _ _ _ pg
    (scanUsages_notMem aclNameIDs usages _ keepACLs [] pg h0)

/-- C9 witness: with `web → 7` kept, the per-network group
`incus_acl7_net3` survives while `incus_acl9` is deleted. -/
theorem claim_C9_witness :
    ("web" : String) ∈ (["web"] : List String) ∧
    goHasPrefix "incus_acl7_net3" (OVNACLPortGroupName (goLookupInt [("web", 7)] "web")) =
      true ∧
    "incus_acl7_net3" ∉
      OVNPortGroupDeleteIfUnusedRemoveList [("web", 7)] ["web"]
        ["incus_acl7", "incus_acl7_net3", "incus_acl9"] [] := by
  refine ⟨by decide, by decide, ?_⟩
  exact claim_C9_keeper_prefix_never_deleted [("web", 7)] ["web"]
    ["incus_acl7", "incus_acl7_net3", "incus_acl9"] [] "web" "incus_acl7_net3"
    (by decide) (by decide)


/-- Deleting a port group filters its name out of the name list. -/
theorem pgNames_deletePG (n : String) (st : OVNState) :
    pgNames (deletePG n st) = (pgNames st).filter (fun m => m != n) := by
  obtain ⟨gs⟩ := st
  unfold pgNames deletePG
  simp only
  induction gs with
  | nil => rfl
  | cons g rest ih =>
    rw [List.filter_cons, List.map_cons, List.filter_cons]
    by_cases hg : (g.1 != n) = true
    · rw [if_pos hg, if_pos hg, List.map_cons, ih]
    · rw [if_neg hg, if_neg hg, ih]

/-- Running the hook stack acts on the name list as `namesAfter`. -/
theorem runHooks_names : ∀ (hooks : List String) (st : OVNState),
    pgNames (runHooks hooks st) = namesAfter hooks (pgNames st)
  | [], st => rfl
  | n :: hooks, st => by
    show pgNames (runHooks hooks (deletePG n st)) = namesAfter hooks ((pgNames st).filter _)
    rw [runHooks_names hooks (deletePG n st), pgNames_deletePG]

/-- Replacing a port group's rule set preserves the name list. -/
theorem setPGRules_names (st : OVNState) (name : String) (rules : List OVNACLRule)
    (st2 : OVNState) (h : setPGRules st name rules = some st2) :
    pgNames st2 = pgNames st := by
  unfold setPGRules at h
  by_cases hs : (st.groups.find? (fun g => g.1 == name)).isSome = true
  · rw [if_pos hs] at h
    cases h
    unfold pgNames
    simp only [List.map_map]
    refine List.map_congr_left ?_
    intro g _
    by_cases hg : (g.1 == name) = true
    · simp only [Function.comp_apply, if_pos hg]
    · simp only [Function.comp_apply, if_neg hg]
  · rw [if_neg hs] at h
    cases h

/-- A name absent from a list is untouched by the hook filter. -/
theorem filter_bne_of_notMem (ns : List String) (x : String) (h : x ∉ ns) :
    ns.filter (fun m => m != x) = ns := by
  refine List.filter_eq_self.mpr ?_
  intro a ha
  exact bne_iff_ne.mpr (fun he => h (he ▸ ha))

/-- An absent lookup means the name is not in the name list. -/
theorem lookupPG_isSome_of_mem (st : OVNState) (name : String)
    (h : name ∈ pgNames st) : (lookupPG st name).isSome = true := by
  unfold lookupPG
  cases hf : st.groups.find? (fun g => g.1 == name) with
  | some g => rfl
  | none =>
    exfalso
    obtain ⟨g, hg, hfst⟩ := List.mem_map.mp h
    exact List.find?_eq_none.mp hf g hg (beq_iff_eq.mpr hfst)

/-- Creating a tracked port group preserves the rollback invariant: the
pushed hook deletes exactly the appended group. -/
theorem createPGTracked_inv (st0 : OVNState) (kind : EventKind) (pid : Int) (name : String)
    (sim : Sim) (h : SimNamesInv st0 sim) :
    SimNamesInv st0 (simOf (createPGTracked kind pid name sim)) := by
  unfold createPGTracked
  by_cases hf : injectFail sim = true
  · rw [if_pos hf]; exact h
  · rw [if_neg hf]
    by_cases he : (lookupPG sim.ovn name).isSome = true
    · rw [if_pos he]; exact h
    · rw [if_neg he]
      have hnm : name ∉ pgNames sim.ovn := by
        intro hm
        exact he (lookupPG_isSome_of_mem sim.ovn name hm)
      unfold SimNamesInv at h ⊢
      show namesAfter (name :: sim.hooks)
        (pgNames ⟨sim.ovn.groups ++ [(name, { project := pid, acls := [] })]⟩) = pgNames st0
      have hpn : pgNames ⟨sim.ovn.groups ++ [(name, { project := pid, acls := [] })]⟩ =
          pgNames sim.ovn ++ [name] := by
        unfold pgNames
        rw [List.map_append]
        rfl
      rw [hpn]
      show namesAfter sim.hooks ((pgNames sim.ovn ++ [name]).filter (fun m => m != name)) =
        pgNames st0
      rw [List.filter_append, filter_bne_of_notMem (pgNames sim.ovn) name hnm]
      have hone : ([name] : List String).filter (fun m => m != name) = [] := by
        rw [List.filter_cons]
        rw [if_neg (by simp : ¬((name != name) = true))]
        rfl
      rw [hone, List.append_nil]
      exact h

/-- Updating a port group's rules preserves the rollback invariant. -/
theorem updatePGRulesTracked_inv (st0 : OVNState) (pg : String)
    (matchReplace : List (String × String)) (rules : List OVNACLRule) (sim : Sim)
    (h : SimNamesInv st0 sim) :
    SimNamesInv st0 (simOf (updatePGRulesTracked pg matchReplace rules sim)) := by
  unfold updatePGRulesTracked
  by_cases hf : injectFail sim = true
  · rw [if_pos hf]; exact h
  · rw [if_neg hf]
    cases hs : setPGRules sim.ovn pg (substituteRules matchReplace rules) with
    | none => exact h
    | some st2 =>
      unfold SimNamesInv at h ⊢
      show namesAfter sim.hooks (pgNames st2) = pgNames st0
      rw [setPGRules_names sim.ovn pg (substituteRules matchReplace rules) st2 hs]
      exact h

/-- The per-network apply loop preserves the rollback invariant. -/
theorem applyNetworkRules_inv (st0 : OVNState) (aclName : String)
    (ids : List (String × Int)) (netRules : List OVNACLRule) :
    ∀ (nets : List NetworkACLUsage) (sim : Sim), SimNamesInv st0 sim →
      SimNamesInv st0 (simOf (applyNetworkRules aclName ids netRules nets sim))
  | [], _, h => h
  | net :: rest, sim, h => by
    rw [applyNetworkRules]
    have hstep := updatePGRulesTracked_inv st0
      (OVNACLNetworkPortGroupName (goLookupInt ids aclName) net.ID)
      [("@" ++ ruleSubjectInternal, "@" ++ OVNIntSwitchPortGroupName net.ID),
       ("@" ++ ruleSubjectExternal, "\"" ++ OVNIntSwitchRouterPortName net.ID ++ "\"")]
      netRules sim h
    cases hu : updatePGRulesTracked
        (OVNACLNetworkPortGroupName (goLookupInt ids aclName) net.ID)
        [("@" ++ ruleSubjectInternal, "@" ++ OVNIntSwitchPortGroupName net.ID),
         ("@" ++ ruleSubjectExternal, "\"" ++ OVNIntSwitchRouterPortName net.ID ++ "\"")]
        netRules sim with
    | fail e s =>
      rw [hu] at hstep
      exact hstep
    | ok s2 =>
      rw [hu] at hstep
      exact applyNetworkRules_inv st0 aclName ids netRules rest s2 hstep

/-- `ovnApplyToPortGroup` preserves the rollback invariant. -/
theorem ovnApplyToPortGroupS_inv (st0 : OVNState) (addressSetTable : List (String × Int))
    (aclInfo : NetworkACL) (pg : String) (ids : List (String × Int))
    (aclNets : List NetworkACLUsage) (peerIDs : List (NetworkPeerConnection × Int))
    (sim : Sim) (h : SimNamesInv st0 sim) :
    SimNamesInv st0 (simOf (ovnApplyToPortGroupS addressSetTable aclInfo pg ids aclNets
      peerIDs sim)) := by
  unfold ovnApplyToPortGroupS
  cases hc : ovnCompileACL addressSetTable aclInfo pg ids peerIDs with
  | error e => exact h
  | ok triple =>
    obtain ⟨pgRules, netRules, peersNeeded⟩ := triple
    simp only
    cases hv : findPeerViolation aclNets peersNeeded with
    | some v =>
      obtain ⟨vn, vp⟩ := v
      exact h
    | none =>
      have hstep := updatePGRulesTracked_inv st0 pg [] pgRules sim h
      cases hu : updatePGRulesTracked pg [] pgRules sim with
      | fail e s =>
        rw [hu] at hstep
        exact hstep
      | ok s1 =>
        rw [hu] at hstep
        exact applyNetworkRules_inv st0 aclInfo.Name ids netRules aclNets s1 hstep

/-- The placeholder-creation loop preserves the rollback invariant. -/
theorem placeholderLoop_inv (st0 : OVNState) (pid : Int) (ids : List (String × Int)) :
    ∀ (names : List String) (sim : Sim), SimNamesInv st0 sim →
      SimNamesInv st0 (simOf (placeholderLoop pid ids names sim))
  | [], _, h => h
  | aclName :: rest, sim, h => by
    rw [placeholderLoop]
    by_cases hg : ((getPortGroupInfo sim.ovn
        (OVNACLPortGroupName (goLookupInt ids aclName))).1 == "") = true
    · rw [if_pos hg]
      have hstep := createPGTracked_inv st0 EventKind.placeholder pid
        (OVNACLPortGroupName (goLookupInt ids aclName)) sim h
      cases hcpg : createPGTracked EventKind.placeholder pid
          (OVNACLPortGroupName (goLookupInt ids aclName)) sim with
      | fail e s =>
        rw [hcpg] at hstep
        exact hstep
      | ok s2 =>
        rw [hcpg] at hstep
        exact placeholderLoop_inv st0 pid ids rest s2 hstep
    · rw [if_neg hg]
      exact placeholderLoop_inv st0 pid ids rest sim h

/-- The per-network creation loop preserves the rollback invariant. -/
theorem createNetPGsLoop_inv (st0 : OVNState) (pid : Int) (ids : List (String × Int))
    (aclName : String) :
    ∀ (nets : List NetworkACLUsage) (sim : Sim), SimNamesInv st0 sim →
      SimNamesInv st0 (simOf (createNetPGsLoop pid ids aclName nets sim))
  | [], _, h => h
  | net :: rest, sim, h => by
    rw [createNetPGsLoop]
    have hstep := createPGTracked_inv st0 EventKind.perNet pid
      (OVNACLNetworkPortGroupName (goLookupInt ids aclName) net.ID) sim h
    cases hcpg : createPGTracked EventKind.perNet pid
        (OVNACLNetworkPortGroupName (goLookupInt ids aclName) net.ID) sim with
    | fail e s =>
      rw [hcpg] at hstep
      exact hstep
    | ok s2 =>
      rw [hcpg] at hstep
      exact createNetPGsLoop_inv st0 pid ids aclName rest s2 hstep

/-- The creation loop preserves the rollback invariant. -/
theorem createACLsLoop_inv (st0 : OVNState) (ast : List (String × Int)) (pid : Int)
    (ids : List (String × Int)) (aclNets : List NetworkACLUsage)
    (peerIDs : List (NetworkPeerConnection × Int)) :
    ∀ (creates : List (String × NetworkACL)) (sim : Sim), SimNamesInv st0 sim →
      SimNamesInv st0 (simOf (createACLsLoop ast pid ids aclNets peerIDs creates sim))
  | [], _, h => h
  | (aclName, aclInfo) :: rest, sim, h => by
    cases hc1 : createPGTracked EventKind.primary pid
        (OVNACLPortGroupName (goLookupInt ids aclName)) sim with
    | fail e s =>
      have h1 := createPGTracked_inv st0 EventKind.primary pid
        (OVNACLPortGroupName (goLookupInt ids aclName)) sim h
      rw [hc1] at h1
      simp only [createACLsLoop, hc1]
      exact h1
    | ok s1 =>
      have h1 := createPGTracked_inv st0 EventKind.primary pid
        (OVNACLPortGroupName (goLookupInt ids aclName)) sim h
      rw [hc1] at h1
      simp only [createACLsLoop, hc1]
      cases hc2 : createNetPGsLoop pid ids aclName aclNets s1 with
      | fail e s =>
        have h2 := createNetPGsLoop_inv st0 pid ids aclName aclNets s1 h1
        rw [hc2] at h2
        simp only [hc2]
        exact h2
      | ok s2 =>
        have h2 := createNetPGsLoop_inv st0 pid ids aclName aclNets s1 h1
        rw [hc2] at h2
        simp only [hc2]
        cases hc3 : ovnApplyToPortGroupS ast aclInfo
            (OVNACLPortGroupName (goLookupInt ids aclName)) ids aclNets peerIDs s2 with
        | fail e s =>
          have h3 := ovnApplyToPortGroupS_inv st0 ast aclInfo
            (OVNACLPortGroupName (goLookupInt ids aclName)) ids aclNets peerIDs s2 h2
          rw [hc3] at h3
          simp only [hc3]
          exact h3
        | ok s3 =>
          have h3 := ovnApplyToPortGroupS_inv st0 ast aclInfo
            (OVNACLPortGroupName (goLookupInt ids aclName)) ids aclNets peerIDs s2 h2
          rw [hc3] at h3
          simp only [hc3]
          exact createACLsLoop_inv st0 ast pid ids aclNets peerIDs rest s3 h3

/-- The existing-groups loop preserves the rollback invariant. -/
theorem existingACLsLoop_inv (st0 : OVNState) (ast : List (String × Int)) (pid : Int)
    (ids : List (String × Int)) (aclNets : List NetworkACLUsage)
    (peerIDs : List (NetworkPeerConnection × Int)) :
    ∀ (existing : List ExistingStatus) (sim : Sim), SimNamesInv st0 sim →
      SimNamesInv st0 (simOf (existingACLsLoop ast pid ids aclNets peerIDs existing sim))
  | [], _, h => h
  | ex :: rest, sim, h => by
    cases hc1 : createNetPGsLoop pid ids ex.name ex.addACLNets sim with
    | fail e s =>
      have h1 := createNetPGsLoop_inv st0 pid ids ex.name ex.addACLNets sim h
      rw [hc1] at h1
      simp only [existingACLsLoop, hc1]
      exact h1
    | ok s1 =>
      have h1 := createNetPGsLoop_inv st0 pid ids ex.name ex.addACLNets sim h
      rw [hc1] at h1
      simp only [existingACLsLoop, hc1]
      cases hinfo : ex.aclInfo with
      | some aclInfo =>
        simp only [hinfo]
        cases hc2 : ovnApplyToPortGroupS ast aclInfo
            (OVNACLPortGroupName (goLookupInt ids ex.name)) ids aclNets peerIDs s1 with
        | fail e s =>
          have h2 := ovnApplyToPortGroupS_inv st0 ast aclInfo
            (OVNACLPortGroupName (goLookupInt ids ex.name)) ids aclNets peerIDs s1 h1
          rw [hc2] at h2
          simp only [hc2]
          exact h2
        | ok s2 =>
          have h2 := ovnApplyToPortGroupS_inv st0 ast aclInfo
            (OVNACLPortGroupName (goLookupInt ids ex.name)) ids aclNets peerIDs s1 h1
          rw [hc2] at h2
          simp only [hc2]
          exact existingACLsLoop_inv st0 ast pid ids aclNets peerIDs rest s2 h2
      | none =>
        simp only [hinfo]
        exact existingACLsLoop_inv st0 ast pid ids aclNets peerIDs rest s1 h1

/-- The whole reconciler body preserves the rollback invariant. -/
theorem ensureACLsBody_inv (st0 : OVNState) (catalog : List (String × NetworkACL))
    (ast : List (String × Int)) (pid : Int) (ids : List (String × Int))
    (aclNets : List NetworkACLUsage) (peerIDs : List (NetworkPeerConnection × Int))
    (aclNames : List String) (reapplyRules : Bool) (sim : Sim)
    (h : SimNamesInv st0 sim) :
    SimNamesInv st0 (simOf (ensureACLsBody catalog ast pid ids aclNets peerIDs aclNames
      reapplyRules sim)) := by
  unfold ensureACLsBody
  cases hn : checkACLNames ids aclNames with
  | some e => exact h
  | none =>
    simp only
    cases hcl : classifyACLs catalog ids aclNets reapplyRules sim.ovn aclNames with
    | error e => exact h
    | ok pair =>
      obtain ⟨creates, existing⟩ := pair
      simp only
      have h1 := placeholderLoop_inv st0 pid ids
        (collectReferencedACLs creates existing reapplyRules) sim h
      cases hp : placeholderLoop pid ids
          (collectReferencedACLs creates existing reapplyRules) sim with
      | fail e s =>
        rw [hp] at h1
        simp only [hp]
        exact h1
      | ok s1 =>
        rw [hp] at h1
        simp only [hp]
        have h2 := createACLsLoop_inv st0 ast pid ids aclNets peerIDs creates s1 h1
        cases hc : createACLsLoop ast pid ids aclNets peerIDs creates s1 with
        | fail e s =>
          rw [hc] at h2
          simp only [hc]
          exact h2
        | ok s2 =>
          rw [hc] at h2
          simp only [hc]
          exact existingACLsLoop_inv st0 ast pid ids aclNets peerIDs existing s2 h2

/-- C3 (amended): whenever `OVNEnsureACLs` fails, running the registered
rollback hooks (LIFO) deletes exactly the port groups created during the
call, restoring the pre-call port-group name list — though not necessarily
the rule sets of pre-existing port groups. -/
theorem claim_C3_rollback_restores_names (catalog : List (String × NetworkACL))
    (ast : List (String × Int)) (pid : Int) (ids : List (String × Int))
    (aclNets : List NetworkACLUsage) (peerIDs : List (NetworkPeerConnection × Int))
    (aclNames : List String) (reapplyRules : Bool) (st : OVNState) (failAt : Option Nat)
    (h : (OVNEnsureACLs catalog ast pid ids aclNets peerIDs aclNames reapplyRules st
      failAt).isFailed = true) :
    pgNames (OVNEnsureACLs catalog ast pid ids aclNets peerIDs aclNames reapplyRules st
      failAt).resultSim.ovn = pgNames st := by
  have hinv := ensureACLsBody_inv st catalog ast pid ids aclNets peerIDs aclNames
    reapplyRules { ovn := st, calls := 0, failAt := failAt, trace := [], hooks := [] } rfl
  unfold OVNEnsureACLs at h ⊢
  cases hb : ensureACLsBody catalog ast pid ids aclNets peerIDs aclNames reapplyRules
      { ovn := st, calls := 0, failAt := failAt, trace := [], hooks := [] } with
  | ok sim =>
    rw [hb] at h
    exact absurd h (by intro hh; cases hh)
  | fail e simF =>
    rw [hb] at hinv
    show pgNames (runHooks simF.hooks simF.ovn) = pgNames st
    rw [runHooks_names]
    exact hinv


/-- C3 counterexample: with two pre-existing port groups and `reapplyRules`,
injecting a failure at the second rule update leaves OVN different from its
pre-call state — the first port group's old rule set was overwritten and no
rollback hook restores it. -/
theorem claim_C3_counterexample :
    (OVNEnsureACLs [("a", { Name := "a" }), ("b", { Name := "b" })] [] 9
      [("a", 1), ("b", 2)] [] [] ["a", "b"] true
      ⟨[("incus_acl1", { project := 9, acls := [{ Direction := "to-lport", Action := "allow", Priority := 300, Match := "old1", Log := false, LogName := "" }] }),
        ("incus_acl2", { project := 9, acls := [{ Direction := "to-lport", Action := "allow", Priority := 300, Match := "old2", Log := false, LogName := "" }] })]⟩
      (some 1)).isFailed = true ∧
    (OVNEnsureACLs [("a", { Name := "a" }), ("b", { Name := "b" })] [] 9
      [("a", 1), ("b", 2)] [] [] ["a", "b"] true
      ⟨[("incus_acl1", { project := 9, acls := [{ Direction := "to-lport", Action := "allow", Priority := 300, Match := "old1", Log := false, LogName := "" }] }),
        ("incus_acl2", { project := 9, acls := [{ Direction := "to-lport", Action := "allow", Priority := 300, Match := "old2", Log := false, LogName := "" }] })]⟩
      (some 1)).resultSim.ovn ≠
      ⟨[("incus_acl1", { project := 9, acls := [{ Direction := "to-lport", Action := "allow", Priority := 300, Match := "old1", Log := false, LogName := "" }] }),
        ("incus_acl2", { project := 9, acls := [{ Direction := "to-lport", Action := "allow", Priority := 300, Match := "old2", Log := false, LogName := "" }] })]⟩ := by
  constructor
  · rfl
  · decide

/-- C3 witness: the names-restored theorem at the concrete failing run. -/
theorem claim_C3_witness :
    pgNames (OVNEnsureACLs [("a", { Name := "a" }), ("b", { Name := "b" })] [] 9
      [("a", 1), ("b", 2)] [] [] ["a", "b"] true
      ⟨[("incus_acl1", { project := 9, acls := [{ Direction := "to-lport", Action := "allow", Priority := 300, Match := "old1", Log := false, LogName := "" }] }),
        ("incus_acl2", { project := 9, acls := [{ Direction := "to-lport", Action := "allow", Priority := 300, Match := "old2", Log := false, LogName := "" }] })]⟩
      (some 1)).resultSim.ovn =
    pgNames
      ⟨[("incus_acl1", { project := 9, acls := [{ Direction := "to-lport", Action := "allow", Priority := 300, Match := "old1", Log := false, LogName := "" }] }),
        ("incus_acl2", { project := 9, acls := [{ Direction := "to-lport", Action := "allow", Priority := 300, Match := "old2", Log := false, LogName := "" }] })]⟩ := by
  exact claim_C3_rollback_restores_names [("a", { Name := "a" }), ("b", { Name := "b" })] [] 9
    [("a", 1), ("b", 2)] [] [] ["a", "b"] true
    ⟨[("incus_acl1", { project := 9, acls := [{ Direction := "to-lport", Action := "allow", Priority := 300, Match := "old1", Log := false, LogName := "" }] }),
      ("incus_acl2", { project := 9, acls := [{ Direction := "to-lport", Action := "allow", Priority := 300, Match := "old2", Log := false, LogName := "" }] })]⟩
    (some 1) rfl

/-- Appending apply-free events in front does not change the checker. -/
theorem placeholderAfterApply_append (a b : List Event)
    (ha : ∀ e ∈ a, isApplyEvent e = false) :
    placeholderAfterApply (a ++ b) false = placeholderAfterApply b false := by
  induction a with
  | nil => rfl
  | cons e r ih =>
    rw [List.cons_append, placeholderAfterApply, ha e (List.mem_cons_self e r)]
    simp only [Bool.false_and, Bool.or_false]
    rw [if_neg (by simp : ¬(false = true))]
    exact ih (fun x hx => ha x (List.mem_cons_of_mem e hx))

/-- A trace with no placeholder creations never triggers the checker. -/
theorem placeholderAfterApply_none : ∀ (l : List Event) (seen : Bool),
    (∀ e ∈ l, isPlaceholderCreate e = false) → placeholderAfterApply l seen = false
  | [], _, _ => rfl
  | e :: r, seen, h => by
    rw [placeholderAfterApply, h e (List.mem_cons_self e r)]
    simp only [Bool.and_false]
    rw [if_neg (by simp : ¬(false = true))]
    exact placeholderAfterApply_none r _ (fun x hx => h x (List.mem_cons_of_mem e hx))

/-- A tracked creation appends only its own creation event. -/
theorem createPGTracked_trace (kind : EventKind) (pid : Int) (name : String) (sim : Sim) :
    ∃ d, (simOf (createPGTracked kind pid name sim)).trace = sim.trace ++ d ∧
      ∀ e ∈ d, e = Event.create kind name := by
  unfold createPGTracked
  by_cases hf : injectFail sim = true
  · rw [if_pos hf]
    exact ⟨[], (List.append_nil sim.trace).symm, by intro e he; cases he⟩
  · rw [if_neg hf]
    by_cases he : (lookupPG sim.ovn name).isSome = true
    · rw [if_pos he]
      exact ⟨[], (List.append_nil sim.trace).symm, by intro e hee; cases hee⟩
    · rw [if_neg he]
      exact ⟨[Event.create kind name], rfl,
        fun e hee => List.mem_singleton.mp hee⟩

/-- A tracked rule update appends only apply events. -/
theorem updatePGRulesTracked_trace (pg : String) (mr : List (String × String))
    (rules : List OVNACLRule) (sim : Sim) :
    ∃ d, (simOf (updatePGRulesTracked pg mr rules sim)).trace = sim.trace ++ d ∧
      ∀ e ∈ d, isApplyEvent e = true := by
  unfold updatePGRulesTracked
  by_cases hf : injectFail sim = true
  · rw [if_pos hf]
    exact ⟨[], (List.append_nil sim.trace).symm, by intro e he; cases he⟩
  · rw [if_neg hf]
    cases hs : setPGRules sim.ovn pg (substituteRules mr rules) with
    | none => exact ⟨[], (List.append_nil sim.trace).symm, by intro e he; cases he⟩
    | some st2 =>
      refine ⟨[Event.applyRules pg (substituteRules mr rules)], rfl, ?_⟩
      intro e he
      rw [List.mem_singleton.mp he]
      rfl

/-- The placeholder loop appends only placeholder-creation events (in
particular no apply events). -/
theorem placeholderLoop_trace (pid : Int) (ids : List (String × Int)) :
    ∀ (names : List String) (sim : Sim),
      ∃ d, (simOf (placeholderLoop pid ids names sim)).trace = sim.trace ++ d ∧
        ∀ e ∈ d, isApplyEvent e = false
  | [], sim => ⟨[], (List.append_nil sim.trace).symm, by intro e he; cases he⟩
  | aclName :: rest, sim => by
    rw [placeholderLoop]
    by_cases hg : ((getPortGroupInfo sim.ovn
        (OVNACLPortGroupName (goLookupInt ids aclName))).1 == "") = true
    · rw [if_pos hg]
      obtain ⟨d1, hd1, hp1⟩ := createPGTracked_trace EventKind.placeholder pid
        (OVNACLPortGroupName (goLookupInt ids aclName)) sim
      cases hc : createPGTracked EventKind.placeholder pid
          (OVNACLPortGroupName (goLookupInt ids aclName)) sim with
      | fail e s =>
        rw [hc] at hd1
        exact ⟨d1, hd1, fun e he => by rw [hp1 e he]; rfl⟩
      | ok s2 =>
        rw [hc] at hd1
        replace hd1 : s2.trace = sim.trace ++ d1 := hd1
        obtain ⟨d2, hd2, hp2⟩ := placeholderLoop_trace pid ids rest s2
        refine ⟨d1 ++ d2, ?_, ?_⟩
        · rw [hd2, hd1, List.append_assoc]
        · intro e he
          rcases List.mem_append.mp he with he | he
          · rw [hp1 e he]; rfl
          · exact hp2 e he
    · rw [if_neg hg]
      exact placeholderLoop_trace pid ids rest sim

/-- The per-network creation loop appends no placeholder-creation events. -/
theorem createNetPGsLoop_trace (pid : Int) (ids : List (String × Int)) (aclName : String) :
    ∀ (nets : List NetworkACLUsage) (sim : Sim),
      ∃ d, (simOf (createNetPGsLoop pid ids aclName nets sim)).trace = sim.trace ++ d ∧
        ∀ e ∈ d, isPlaceholderCreate e = false
  | [], sim => ⟨[], (List.append_nil sim.trace).symm, by intro e he; cases he⟩
  | net :: rest, sim => by
    rw [createNetPGsLoop]
    obtain ⟨d1, hd1, hp1⟩ := createPGTracked_trace EventKind.perNet pid
      (OVNACLNetworkPortGroupName (goLookupInt ids aclName) net.ID) sim
    cases hc : createPGTracked EventKind.perNet pid
        (OVNACLNetworkPortGroupName (goLookupInt ids aclName) net.ID) sim with
    | fail e s =>
      rw [hc] at hd1
      exact ⟨d1, hd1, fun e he => by rw [hp1 e he]; rfl⟩
    | ok s2 =>
      rw [hc] at hd1
      replace hd1 : s2.trace = sim.trace ++ d1 := hd1
      obtain ⟨d2, hd2, hp2⟩ := createNetPGsLoop_trace pid ids aclName rest s2
      refine ⟨d1 ++ d2, ?_, ?_⟩
      · rw [hd2, hd1, List.append_assoc]
      · intro e he
        rcases List.mem_append.mp he with he | he
        · rw [hp1 e he]; rfl
        · exact hp2 e he

/-- The per-network apply loop appends no placeholder-creation events. -/
theorem applyNetworkRules_trace (aclName : String) (ids : List (String × Int))
    (netRules : List OVNACLRule) :
    ∀ (nets : List NetworkACLUsage) (sim : Sim),
      ∃ d, (simOf (applyNetworkRules aclName ids netRules nets sim)).trace =
          sim.trace ++ d ∧
        ∀ e ∈ d, isPlaceholderCreate e = false
  | [], sim => ⟨[], (List.append_nil sim.trace).symm, by intro e he; cases he⟩
  | net :: rest, sim => by
    rw [applyNetworkRules]
    obtain ⟨d1, hd1, hp1⟩ := updatePGRulesTracked_trace
      (OVNACLNetworkPortGroupName (goLookupInt ids aclName) net.ID)
      [("@" ++ ruleSubjectInternal, "@" ++ OVNIntSwitchPortGroupName net.ID),
       ("@" ++ ruleSubjectExternal, "\"" ++ OVNIntSwitchRouterPortName net.ID ++ "\"")]
      netRules sim
    cases hc : updatePGRulesTracked
        (OVNACLNetworkPortGroupName (goLookupInt ids aclName) net.ID)
        [("@" ++ ruleSubjectInternal, "@" ++ OVNIntSwitchPortGroupName net.ID),
         ("@" ++ ruleSubjectExternal, "\"" ++ OVNIntSwitchRouterPortName net.ID ++ "\"")]
        netRules sim with
    | fail e s =>
      rw [hc] at hd1
      refine ⟨d1, hd1, ?_⟩
      intro e he
      cases e with
      | create k n => exact Bool.noConfusion (hp1 (Event.create k n) he)
      | applyRules p rs => rfl
    | ok s2 =>
      rw [hc] at hd1
      replace hd1 : s2.trace = sim.trace ++ d1 := hd1
      obtain ⟨d2, hd2, hp2⟩ := applyNetworkRules_trace aclName ids netRules rest s2
      refine ⟨d1 ++ d2, ?_, ?_⟩
      · rw [hd2, hd1, List.append_assoc]
      · intro e he
        rcases List.mem_append.mp he with he | he
        · cases e with
          | create k n => exact Bool.noConfusion (hp1 (Event.create k n) he)
          | applyRules p rs => rfl
        · exact hp2 e he

/-- `ovnApplyToPortGroup` appends no placeholder-creation events. -/
theorem ovnApplyToPortGroupS_trace (ast : List (String × Int)) (aclInfo : NetworkACL)
    (pg : String) (ids : List (String × Int)) (aclNets : List NetworkACLUsage)
    (peerIDs : List (NetworkPeerConnection × Int)) (sim : Sim) :
    ∃ d, (simOf (ovnApplyToPortGroupS ast aclInfo pg ids aclNets peerIDs sim)).trace =
        sim.trace ++ d ∧
      ∀ e ∈ d, isPlaceholderCreate e = false := by
  unfold ovnApplyToPortGroupS
  cases hc : ovnCompileACL ast aclInfo pg ids peerIDs with
  | error e => exact ⟨[], (List.append_nil sim.trace).symm, by intro e he; cases he⟩
  | ok triple =>
    obtain ⟨pgRules, netRules, peersNeeded⟩ := triple
    simp only
    cases hv : findPeerViolation aclNets peersNeeded with
    | some v =>
      obtain ⟨vn, vp⟩ := v
      exact ⟨[], (List.append_nil sim.trace).symm, by intro e he; cases he⟩
    | none =>
      obtain ⟨d1, hd1, hp1⟩ := updatePGRulesTracked_trace pg [] pgRules sim
      cases hu : updatePGRulesTracked pg [] pgRules sim with
      | fail e s =>
        rw [hu] at hd1
        refine ⟨d1, hd1, ?_⟩
        intro e he
        cases e with
        | create k n => exact Bool.noConfusion (hp1 (Event.create k n) he)
        | applyRules p rs => rfl
      | ok s1 =>
        rw [hu] at hd1
        replace hd1 : s1.trace = sim.trace ++ d1 := hd1
        obtain ⟨d2, hd2, hp2⟩ := applyNetworkRules_trace aclInfo.Name ids netRules aclNets s1
        refine ⟨d1 ++ d2, ?_, ?_⟩
        · rw [hd2, hd1, List.append_assoc]
        · intro e he
          rcases List.mem_append.mp he with he | he
          · cases e with
            | create k n => exact Bool.noConfusion (hp1 (Event.create k n) he)
            | applyRules p rs => rfl
          · exact hp2 e he

/-- The creation loop appends no placeholder-creation events. -/
theorem createACLsLoop_trace (ast : List (String × Int)) (pid : Int)
    (ids : List (String × Int)) (aclNets : List NetworkACLUsage)
    (peerIDs : List (NetworkPeerConnection × Int)) :
    ∀ (creates : List (String × NetworkACL)) (sim : Sim),
      ∃ d, (simOf (createACLsLoop ast pid ids aclNets peerIDs creates sim)).trace =
          sim.trace ++ d ∧
        ∀ e ∈ d, isPlaceholderCreate e = false
  | [], sim => ⟨[], (List.append_nil sim.trace).symm, by intro e he; cases he⟩
  | (aclName, aclInfo) :: rest, sim => by
    obtain ⟨d1, hd1, hp1⟩ := createPGTracked_trace EventKind.primary pid
      (OVNACLPortGroupName (goLookupInt ids aclName)) sim
    cases hc1 : createPGTracked EventKind.primary pid
        (OVNACLPortGroupName (goLookupInt ids aclName)) sim with
    | fail e s =>
      rw [hc1] at hd1
      simp only [createACLsLoop, hc1]
      refine ⟨d1, hd1, ?_⟩
      intro e he
      rw [hp1 e he]
      rfl
    | ok s1 =>
      rw [hc1] at hd1
      replace hd1 : s1.trace = sim.trace ++ d1 := hd1
      simp only [createACLsLoop, hc1]
      obtain ⟨d2, hd2, hp2⟩ := createNetPGsLoop_trace pid ids aclName aclNets s1
      cases hc2 : createNetPGsLoop pid ids aclName aclNets s1 with
      | fail e s =>
        rw [hc2] at hd2
        simp only [hc2]
        refine ⟨d1 ++ d2, ?_, ?_⟩
        · rw [hd2, hd1, List.append_assoc]
        · intro e he
          rcases List.mem_append.mp he with he | he
          · rw [hp1 e he]; rfl
          · exact hp2 e he
      | ok s2 =>
        rw [hc2] at hd2
        replace hd2 : s2.trace = s1.trace ++ d2 := hd2
        simp only [hc2]
        obtain ⟨d3, hd3, hp3⟩ := ovnApplyToPortGroupS_trace ast aclInfo
          (OVNACLPortGroupName (goLookupInt ids aclName)) ids aclNets peerIDs s2
        cases hc3 : ovnApplyToPortGroupS ast aclInfo
            (OVNACLPortGroupName (goLookupInt ids aclName)) ids aclNets peerIDs s2 with
        | fail e s =>
          rw [hc3] at hd3
          simp only [hc3]
          refine ⟨d1 ++ (d2 ++ d3), ?_, ?_⟩
          · rw [hd3, hd2, hd1]
            simp [List.append_assoc]
          · intro e he
            rcases List.mem_append.mp he with he | he
            · rw [hp1 e he]; rfl
            · rcases List.mem_append.mp he with he | he
              · exact hp2 e he
              · exact hp3 e he
        | ok s3 =>
          rw [hc3] at hd3
          replace hd3 : s3.trace = s2.trace ++ d3 := hd3
          simp only [hc3]
          obtain ⟨d4, hd4, hp4⟩ := createACLsLoop_trace ast pid ids aclNets peerIDs rest s3
          refine ⟨d1 ++ (d2 ++ (d3 ++ d4)), ?_, ?_⟩
          · rw [hd4, hd3, hd2, hd1]
            simp [List.append_assoc]
          · intro e he
            rcases List.mem_append.mp he with he | he
            · rw [hp1 e he]; rfl
            · rcases List.mem_append.mp he with he | he
              · exact hp2 e he
              · rcases List.mem_append.mp he with he | he
                · exact hp3 e he
                · exact hp4 e he

/-- The existing-groups loop appends no placeholder-creation events. -/
theorem existingACLsLoop_trace (ast : List (String × Int)) (pid : Int)
    (ids : List (String × Int)) (aclNets : List NetworkACLUsage)
    (peerIDs : List (NetworkPeerConnection × Int)) :
    ∀ (existing : List ExistingStatus) (sim : Sim),
      ∃ d, (simOf (existingACLsLoop ast pid ids aclNets peerIDs existing sim)).trace =
          sim.trace ++ d ∧
        ∀ e ∈ d, isPlaceholderCreate e = false
  | [], sim => ⟨[], (List.append_nil sim.trace).symm, by intro e he; cases he⟩
  | ex :: rest, sim => by
    obtain ⟨d1, hd1, hp1⟩ := createNetPGsLoop_trace pid ids ex.name ex.addACLNets sim
    cases hc1 : createNetPGsLoop pid ids ex.name ex.addACLNets sim with
    | fail e s =>
      rw [hc1] at hd1
      simp only [existingACLsLoop, hc1]
      exact ⟨d1, hd1, hp1⟩
    | ok s1 =>
      rw [hc1] at hd1
      replace hd1 : s1.trace = sim.trace ++ d1 := hd1
      simp only [existingACLsLoop, hc1]
      cases hinfo : ex.aclInfo with
      | some aclInfo =>
        simp only [hinfo]
        obtain ⟨d2, hd2, hp2⟩ := ovnApplyToPortGroupS_trace ast aclInfo
          (OVNACLPortGroupName (goLookupInt ids ex.name)) ids aclNets peerIDs s1
        cases hc2 : ovnApplyToPortGroupS ast aclInfo
            (OVNACLPortGroupName (goLookupInt ids ex.name)) ids aclNets peerIDs s1 with
        | fail e s =>
          rw [hc2] at hd2
          simp only [hc2]
          refine ⟨d1 ++ d2, ?_, ?_⟩
          · rw [hd2, hd1, List.append_assoc]
          · intro e he
            rcases List.mem_append.mp he with he | he
            · exact hp1 e he
            · exact hp2 e he
        | ok s2 =>
          rw [hc2] at hd2
          replace hd2 : s2.trace = s1.trace ++ d2 := hd2
          simp only [hc2]
          obtain ⟨d3, hd3, hp3⟩ := existingACLsLoop_trace ast pid ids aclNets peerIDs rest s2
          refine ⟨d1 ++ (d2 ++ d3), ?_, ?_⟩
          · rw [hd3, hd2, hd1]
            simp [List.append_assoc]
          · intro e he
            rcases List.mem_append.mp he with he | he
            · exact hp1 e he
            · rcases List.mem_append.mp he with he | he
              · exact hp2 e he
              · exact hp3 e he
      | none =>
        simp only [hinfo]
        obtain ⟨d2, hd2, hp2⟩ := existingACLsLoop_trace ast pid ids aclNets peerIDs rest s1
        refine ⟨d1 ++ d2, ?_, ?_⟩
        · rw [hd2, hd1, List.append_assoc]
        · intro e he
          rcases List.mem_append.mp he with he | he
          · exact hp1 e he
          · exact hp2 e he

/-- The reconciler body's trace is a block of apply-free (placeholder) events
followed by a block free of placeholder creations. -/
theorem ensureACLsBody_trace (catalog : List (String × NetworkACL))
    (ast : List (String × Int)) (pid : Int) (ids : List (String × Int))
    (aclNets : List NetworkACLUsage) (peerIDs : List (NetworkPeerConnection × Int))
    (aclNames : List String) (reapplyRules : Bool) (sim : Sim) :
    ∃ d1 d2, (simOf (ensureACLsBody catalog ast pid ids aclNets peerIDs aclNames
        reapplyRules sim)).trace = (sim.trace ++ d1) ++ d2 ∧
      (∀ e ∈ d1, isApplyEvent e = false) ∧ ∀ e ∈ d2, isPlaceholderCreate e = false := by
  unfold ensureACLsBody
  cases hn : checkACLNames ids aclNames with
  | some e =>
    refine ⟨[], [], ?_, ?_, ?_⟩
    · show sim.trace = (sim.trace ++ []) ++ []
      rw [List.append_nil, List.append_nil]
    · intro e he; cases he
    · intro e he; cases he
  | none =>
    simp only
    cases hcl : classifyACLs catalog ids aclNets reapplyRules sim.ovn aclNames with
    | error e =>
      refine ⟨[], [], ?_, ?_, ?_⟩
      · show sim.trace = (sim.trace ++ []) ++ []
        rw [List.append_nil, List.append_nil]
      · intro e he; cases he
      · intro e he; cases he
    | ok pair =>
      obtain ⟨creates, existing⟩ := pair
      simp only
      obtain ⟨d1, hd1, hp1⟩ := placeholderLoop_trace pid ids
        (collectReferencedACLs creates existing reapplyRules) sim
      cases hp : placeholderLoop pid ids
          (collectReferencedACLs creates existing reapplyRules) sim with
      | fail e s =>
        rw [hp] at hd1
        simp only [hp]
        refine ⟨d1, [], ?_, hp1, ?_⟩
        · rw [List.append_nil]
          exact hd1
        · intro e he; cases he
      | ok s1 =>
        rw [hp] at hd1
        replace hd1 : s1.trace = sim.trace ++ d1 := hd1
        simp only [hp]
        obtain ⟨d2, hd2, hp2⟩ := createACLsLoop_trace ast pid ids aclNets peerIDs creates s1
        cases hc : createACLsLoop ast pid ids aclNets peerIDs creates s1 with
        | fail e s =>
          rw [hc] at hd2
          simp only [hc]
          exact ⟨d1, d2, by rw [hd2, hd1], hp1, hp2⟩
        | ok s2 =>
          rw [hc] at hd2
          replace hd2 : s2.trace = s1.trace ++ d2 := hd2
          simp only [hc]
          obtain ⟨d3, hd3, hp3⟩ := existingACLsLoop_trace ast pid ids aclNets peerIDs
            existing s2
          refine ⟨d1, d2 ++ d3, ?_, hp1, ?_⟩
          · rw [hd3, hd2, hd1]
            simp [List.append_assoc]
          · intro e he
            rcases List.mem_append.mp he with he | he
            · exact hp2 e he
            · exact hp3 e he

/-- C4 (amended, positive part): in every run of `OVNEnsureACLs`, all
placeholder port-group creations happen before any rule application — no
placeholder is created after a rule set has been applied. -/
theorem claim_C4_placeholders_before_applies (catalog : List (String × NetworkACL))
    (ast : List (String × Int)) (pid : Int) (ids : List (String × Int))
    (aclNets : List NetworkACLUsage) (peerIDs : List (NetworkPeerConnection × Int))
    (aclNames : List String) (reapplyRules : Bool) (st : OVNState) (failAt : Option Nat) :
    placeholderAfterApply
      ((OVNEnsureACLs catalog ast pid ids aclNets peerIDs aclNames reapplyRules st
        failAt).resultSim.trace) false = false := by
  obtain ⟨d1, d2, htr, h1, h2⟩ := ensureACLsBody_trace catalog ast pid ids aclNets peerIDs
    aclNames reapplyRules { ovn := st, calls := 0, failAt := failAt, trace := [], hooks := [] }
  unfold OVNEnsureACLs
  cases hb : ensureACLsBody catalog ast pid ids aclNets peerIDs aclNames reapplyRules
      { ovn := st, calls := 0, failAt := failAt, trace := [], hooks := [] } with
  | ok sim =>
    rw [hb] at htr
    replace htr : sim.trace = ([] ++ d1) ++ d2 := htr
    rw [List.nil_append] at htr
    show placeholderAfterApply sim.trace false = false
    rw [htr, placeholderAfterApply_append d1 d2 h1]
    exact placeholderAfterApply_none d2 false h2
  | fail e simF =>
    rw [hb] at htr
    replace htr : simF.trace = ([] ++ d1) ++ d2 := htr
    rw [List.nil_append] at htr
    show placeholderAfterApply simF.trace false = false
    rw [htr, placeholderAfterApply_append d1 d2 h1]
    exact placeholderAfterApply_none d2 false h2

/-- C4 counterexample: when two ACLs are created in one call and the first
references the second, the first ACL's rule set — whose match mentions
`@incus_acl2` — is applied before `incus_acl2` is created (the referenced
ACL gets no placeholder because it is in the creation set, and rule
application is interleaved per ACL). -/
theorem claim_C4_counterexample :
    applyBeforeCreateOf "incus_acl2"
      ((OVNEnsureACLs
        [("a", { Name := "a", Ingress := [{ Action := "allow", State := "enabled", Source := "b" }] }),
         ("b", { Name := "b" })]
        [] 9 [("a", 1), ("b", 2)] [] [] ["a", "b"] false ⟨[]⟩ none).resultSim.trace) =
      true ∧
    lookupPG ⟨[]⟩ "incus_acl2" = none := by
  exact ⟨by decide, rfl⟩

end IncusACL
